import Mathlib

/-!
Verification of the `whatrecord` IOC shell interpreter (`src/whatrecord/shell.py`).

This file gives a shallow embedding of the shell-state container, its command
handlers, the script interpreter, and the script container, and proves/refutes
the frozen specification claims about them.

Modelling conventions:
* Python dictionaries are insertion-ordered association lists (`List (String × α)`):
  `pyGet` is `dict.get`, `pySet` is `d[k] = v` (overwrite-in-place if present,
  append otherwise), `pyUpdate` is `dict.update`.
* Python exceptions become `Except String` results; handlers also return the
  (possibly partially mutated) state alongside the error, matching Python's
  in-place mutation semantics.
* Collaborator modules not present under `src/` (the database file parser, the
  line parser `parse_iocsh_line`, the macro engine, the filesystem, the motor
  command table) are supplied through an `Env` record of functions, and the
  data types they define (`RecordInstance`, the asyn port classes,
  `MutableLoadContext`) are modelled from the spec and from how `shell.py`
  constructs and uses them.
-/

namespace Whatrecord

/-- `dict.get k`: first entry with the given key (keys are unique in
dicts built by `pySet`). -/
def pyGet {α : Type} : List (String × α) → String → Option α
  | [], _ => none
  | p :: rest, k => if p.1 == k then some p.2 else pyGet rest k

/-- `d[k] = v` on a Python dict: overwrite in place when the key exists
(keeping its position), append otherwise. -/
def pySet {α : Type} : List (String × α) → String → α → List (String × α)
  | [], k, v => [(k, v)]
  | p :: rest, k, v => if p.1 == k then (k, v) :: rest else p :: pySet rest k v

/-- `dict.update(other)`: fold `pySet` over the other dict's entries in order. -/
def pyUpdate {α : Type} (d other : List (String × α)) : List (String × α) :=
  other.foldl (fun acc p => pySet acc p.1 p.2) d

/-!
String primitives.  Lean's own `String.startsWith`, `String.splitOn` … are
implemented by well-founded recursion and do not reduce inside the kernel, so
the Python string operations used by `shell.py` are re-implemented here
structurally over the character list of the string. -/

/-- Python `str.startswith`. -/
def pyStartsWith (s pre : String) : Bool := pre.data.isPrefixOf s.data

/-- Python `str.endswith`. -/
def pyEndsWith (s suf : String) : Bool := suf.data.reverse.isPrefixOf s.data.reverse

/-- Python `s[n:]` (character count; `shell.py` only slices ASCII paths). -/
def pyDrop (s : String) (n : Nat) : String := String.mk (s.data.drop n)

/-- Python `len` on a string (character count). -/
def pyLen (s : String) : Nat := s.data.length

/-- Python `c in s` for a single character. -/
def pyContainsChar (s : String) (c : Char) : Bool := s.data.contains c

/-- Worker for `pySplitOn`: left-to-right, non-overlapping split on a
non-empty separator; the fuel is an upper bound on the loop steps so the
function is structurally recursive (it never runs out when started with
`length + 1`). -/
def splitOnGo (sep : List Char) : Nat → List Char → List Char → List (List Char)
  | 0, l, acc => [acc.reverse ++ l]
  | fuel + 1, l, acc =>
      match l with
      | [] => [acc.reverse]
      | c :: rest =>
          if sep.isPrefixOf l then
            acc.reverse :: splitOnGo sep fuel (l.drop sep.length) []
          else
            splitOnGo sep fuel rest (c :: acc)

/-- Python `str.split(sep)` for a non-empty separator (empty separators do
not occur in `shell.py`; they are mapped to the identity split here). -/
def pySplitOn (s sep : String) : List String :=
  if sep.data.isEmpty then [s]
  else (splitOnGo sep.data (s.data.length + 1) s.data []).map String.mk

/-- Python `sep.join(parts)`. -/
def pyJoin (sep : String) : List String → String
  | [] => ""
  | [x] => x
  | x :: y :: rest => x ++ sep ++ pyJoin sep (y :: rest)

/-- Python `str.strip(chars)`: drop the given characters from both ends. -/
def pyStrip (chars : List Char) (s : String) : String :=
  String.mk (((s.data.dropWhile (fun c => chars.contains c)).reverse.dropWhile
    (fun c => chars.contains c)).reverse)

/-- Python `str.strip()` (no argument): strip whitespace. -/
def pyStripWs (s : String) : String :=
  pyStrip [' ', '\t', '\n', '\r', '\x0b', '\x0c'] s

/-- Python `repr` of a simple string (used for `!r` interpolations). -/
def pyRepr (s : String) : String := "'" ++ s ++ "'"

/-- Python `str.splitlines` (newline-only approximation): like
`splitOn "\n"` but without a trailing empty line for a trailing newline,
and `[]` for the empty string. -/
def pySplitlines (s : String) : List String :=
  if s = "" then []
  else if pyEndsWith s "\n" then (pySplitOn s "\n").dropLast
  else pySplitOn s "\n"

/-- `os.path.isabs` for POSIX paths. -/
def isAbs (p : String) : Bool := pyStartsWith p "/"

/-- `pathlib`'s `/` operator: an absolute right operand wins. -/
def pathJoin (wd p : String) : String :=
  if isAbs p then p else wd ++ "/" ++ p

/-- A `(filename, line)` pair: one element of a `FullLoadContext`. -/
abbrev LoadCtx := String × Nat

/-- Modelled from the spec: `MutableLoadContext` (from the absent `common`
module) is a mutable `(name, line)` stack entry; the interpreter removes "the
load-context stack entry for the current file" on exit.  The `id` field gives
each pushed entry a distinct identity so that removal takes out exactly the
entry pushed for the current file, mirroring Python object identity. -/
structure LoadCtxEntry where
  id : Nat
  name : String
  line : Nat
deriving DecidableEq, Repr

/-- One field of a record, as stored in `RecordInstance.fields`
(modelled from the spec's field-name → FieldValue mapping; `shell.py`
reads `.value` from it). -/
structure RecordField where
  value : String
  context : List LoadCtx := []
deriving DecidableEq, Repr

/-- Modelled from the spec: `RecordInstance` (absent `common` module) —
record-type name, field mapping, provenance context, PVA flag, metadata;
constructed by `shell.py` exactly with these components. -/
structure RecordInstance where
  context : List LoadCtx := []
  name : String := ""
  record_type : String := ""
  fields : List (String × RecordField) := []
  is_pva : Bool := false
  metadata : List (String × List (String × String)) := []
deriving DecidableEq, Repr

/-- An option stored on an asyn port by `asynSetOption`
(`asyn.AsynPortOption` in the absent `asyn` module). -/
structure AsynPortOption where
  context : List LoadCtx := []
  key : String := ""
  value : String := ""
deriving DecidableEq, Repr

/-- Modelled from the spec: an addressed sub-device of a multi-device port
("may own child device sub-objects addressed by an integer address"). -/
structure AsynPortDevice where
  options : List (String × AsynPortOption) := []
deriving DecidableEq, Repr

/-- Motor data stored in a parent port's `motors` mapping
(`asyn.AsynMotor` as constructed by `shell.py`). -/
structure AsynMotorData where
  context : List LoadCtx := []
  name : String := ""
  parent : Option String := none
  metadata : List (String × String) := []
deriving DecidableEq, Repr

/-- Modelled from the spec: the asyn port classes of the absent `asyn` module
(`AsynSerialPort`, `AsynIPPort`, `AdsAsynPort`, `AsynMotor`,
`AsynPortMultiDevice`), collapsed into one structure with a `kind` tag.
`parent` is a name-based back-reference (only motors set it); `devices` is
populated only for multi-device ports; `info` holds the remaining
constructor keyword arguments as passed by `shell.py`. -/
structure AsynPort where
  kind : String
  context : List LoadCtx := []
  name : String := ""
  parent : Option String := none
  info : List (String × Option String) := []
  metadata : List (String × String) := []
  options : List (String × AsynPortOption) := []
  devices : List (String × AsynPortDevice) := []
  motors : List (String × AsynMotorData) := []
deriving DecidableEq, Repr

/-- The parsed record-type schema (`db.Database` as used by `shell.py`:
only attached, tested for presence, and passed back to the parser). -/
structure DatabaseDef where
  record_types : List String := []
deriving DecidableEq, Repr

/-- The result of parsing one records file against the schema
(the `records` and `pva_groups` of the transient per-file `Database`). -/
structure ParsedDb where
  records : List (String × RecordInstance) := []
  pva_groups : List (String × RecordInstance) := []
deriving DecidableEq, Repr

/-- An input/output redirection directive parsed from a line. -/
structure IocshRedirect where
  mode : String := "r"
  name : String := ""
deriving DecidableEq, Repr

/-- What `parse_iocsh_line` (absent `iocsh` module) produces, modelled from
the spec (§4.2): argv after quoting and macro expansion, redirects, and an
optional parse-error message. -/
structure ParsedLine where
  line : String := ""
  argv : List String := []
  redirects : List IocshRedirect := []
  error : Option String := none
deriving DecidableEq, Repr

/-- The opaque result object a command handler returns. -/
inductive CmdResult where
  /-- Python `None` (also the sentinel `unhandled` outcome). -/
  | pyNone : CmdResult
  /-- A plain string result. -/
  | str : String → CmdResult
  /-- The dict returned by `handle_epicsEnvSet`. -/
  | envSet : String → String → Option String → CmdResult
  /-- The macro listing returned by `handle_epicsEnvShow`. -/
  | macroDefs : List (String × String) → CmdResult
  /-- The `IocshCmdArgs` re-invocation marker returned by `handle_iocshCmd`. -/
  | cmdArgs : List LoadCtx → String → CmdResult
  /-- The list returned by `handle_dbl`. -/
  | strList : List String → CmdResult
  /-- The metadata dict returned by `handle_NDPvaConfigure`. -/
  | ndMetadata : List (String × String) → CmdResult
  /-- `ShortLinterResults` from `handle_dbLoadRecords` (record names and macros). -/
  | linter : List String → List (String × String) → CmdResult
deriving DecidableEq, Repr

/-- One per-line interpreter result (`common.IocshResult`). -/
structure IocshResultM where
  line : String := ""
  argv : List String := []
  redirects : List IocshRedirect := []
  error : Option String := none
  result : Option CmdResult := none
deriving DecidableEq, Repr

/-- `ShellState`: the interpreter's mutable world (`shell.py` dataclass),
with the macro context flattened to its definitions (`macroDefs`) and
`IocMetadata` flattened to the fields `shell.py` touches
(`ioc_base_version`, `ioc_loaded_files`). -/
structure ShellState where
  prompt : String := "epics>"
  /-- The `variables` dict (`variables` is a reserved word in Lean). -/
  variables_ : List (String × String) := []
  string_encoding : String := "latin-1"
  ioc_initialized : Bool := false
  standin_directories : List (String × String) := []
  working_directory : String := "."
  database_definition : Option DatabaseDef := none
  database : List (String × RecordInstance) := []
  pva_database : List (String × RecordInstance) := []
  load_context : List LoadCtxEntry := []
  ctx_counter : Nat := 0
  asyn_ports : List (String × AsynPort) := []
  loaded_files : List (String × String) := []
  macroDefs : List (String × String) := []
  ioc_base_version : String := ""
  ioc_loaded_files : List (String × String) := []
deriving DecidableEq, Repr

/-- The collaborators `shell.py` consumes but whose code is not under `src/`:
the filesystem, the database parser, the line parser, the macro string
parser, and the motor command table. -/
structure Env where
  /-- `util.read_text_file_with_hash`: path → (sha, contents) or an error. -/
  read_file : String → Except String (String × String)
  /-- `Database.from_string` (schema parse), given contents, filename, macros. -/
  db_from_string : String → String → List (String × String) → Except String DatabaseDef
  /-- `Database.from_file` (records parse), given filename and macros. -/
  db_from_file : String → List (String × String) → Except String ParsedDb
  /-- `pathlib.Path.exists`. -/
  path_exists : String → Bool
  /-- `pathlib.Path.resolve`. -/
  resolve : String → String
  /-- `parse_iocsh_line`, given the line, load context and macros. -/
  parse_line : String → List LoadCtx → List (String × String) → ParsedLine
  /-- `MacroContext.definitions_to_dict`. -/
  defs_to_dict : String → List (String × String)
  /-- `motor.shell_commands`: command name → ordered (arg name, type name) schema. -/
  motor_commands : List (String × List (String × String))
  /-- `settings.DEFAULT_BASE_VERSION`. -/
  default_base_version : String

/-- A command handler: raw argument list in, opaque result (or exception)
and the possibly mutated state out. -/
abbrev HandlerFn := Env → ShellState → List String →
  (Except String CmdResult) × ShellState

/-- `ShellState.get_load_context`: snapshot the mutable stack as a tuple of
`(name, line)` pairs. -/
def get_load_context (s : ShellState) : List LoadCtx :=
  s.load_context.map (fun e => (e.name, e.line))

/-- `ShellState._fix_path`: rewrite the first matching stand-in prefix of an
absolute path (dict iteration order = insertion order); otherwise resolve
against the working directory.  (The `filename.split(from_, 1)` of the source
is prefix-drop here, which coincides with it under the `startswith` guard.) -/
def _fix_path (s : ShellState) (filename : String) : String :=
  if isAbs filename then
    match s.standin_directories.find? (fun p => pyStartsWith filename p.1) with
    | some ft => ft.2 ++ pyDrop filename (pyLen ft.1)
    | none => pathJoin s.working_directory filename
  else pathJoin s.working_directory filename

/-- `ShellState.load_file`: fix the path, resolve it, read it, and record its
content hash in both file ledgers.  On a read failure the state is unchanged. -/
def load_file (env : Env) (s : ShellState) (filename : String) :
    (Except String (String × String)) × ShellState :=
  let f := env.resolve (_fix_path s filename)
  match env.read_file f with
  | .error e => (.error e, s)
  | .ok shaContents =>
      (.ok (f, shaContents.2),
       { s with loaded_files := pySet s.loaded_files f shaContents.1,
                ioc_loaded_files := pySet s.ioc_loaded_files f shaContents.1 })

/-- `ShellState._generic_motor_handler`: format each (name, type) schema pair
with its argument value (`zip` stops at the shorter list). -/
def _generic_motor_handler (schema : List (String × String)) (args : List String) : String :=
  pyJoin "\n"
    ((schema.zip args).map (fun p => "(" ++ p.1.2 ++ ") " ++ p.1.1 ++ " = " ++ pyRepr p.2))

/-- The `_motor_wrapper` decorator: run the specific handler, then append the
generic parameter diagnostic.  (The source's `motor_mod.shell_commands[name]`
lookup is total here — decorated commands are present in that table of the
absent `motor` module.) -/
def _motor_wrapper (name : String) (specific : HandlerFn) : HandlerFn := fun env s args =>
  match specific env s args with
  | (.error e, s') => (.error e, s')
  | (.ok r, s') =>
      let generic := _generic_motor_handler ((pyGet env.motor_commands name).getD []) args
      match r with
      | .str spec =>
          (.ok (.str (if spec == "" then generic else spec ++ "\n\n" ++ generic)), s')
      | _ => (.ok (.str generic), s')

/-- `ShellState.handle_iocshRegisterVariable`. -/
def handle_iocshRegisterVariable : HandlerFn := fun _ s args =>
  match args with
  | v :: val :: _ =>
      (.ok (.str ("Registered variable: " ++ pyRepr v ++ "=" ++ pyRepr val)),
       { s with variables_ := pySet s.variables_ v val })
  | _ => (.error "TypeError: iocshRegisterVariable missing arguments", s)

/-- The SLAC-specific base-version prefixes of `env_set_EPICS_BASE`. -/
def version_prefixes : List String :=
  ["/reg/g/pcds/epics/base/", "/cds/group/pcds/epics/base/"]

/-- `ShellState.env_set_EPICS_BASE`: derive the base version from a known
path prefix; returns `none` when no prefix matches (Python falls off the
function end). -/
def env_set_EPICS_BASE (env : Env) (s : ShellState) (path : String) :
    Option String × ShellState :=
  let p := env.resolve path
  match version_prefixes.find? (fun pre => pyStartsWith p pre) with
  | none => (none, s)
  | some pre =>
      let rest := pyDrop p (pyLen pre)
      let rest := if pyContainsChar rest '/' then (pySplitOn rest "/").headD "" else rest
      let version := String.mk (rest.toList.dropWhile (fun c => c == 'R'))
      if s.ioc_base_version == env.default_base_version then
        (some ("Set base version: " ++ version), { s with ioc_base_version := version })
      else
        (some ("Found version (" ++ version ++ ") but version already specified: "
               ++ s.ioc_base_version), s)

/-- `ShellState.handle_epicsEnvSet`: define the macro, then run the
`env_set_<variable>` hook if one exists (only `EPICS_BASE` has one). -/
def handle_epicsEnvSet : HandlerFn := fun env s args =>
  match args with
  | v :: val :: _ =>
      let s1 := { s with macroDefs := pySet s.macroDefs v val }
      let hooked :=
        if v == "EPICS_BASE" then env_set_EPICS_BASE env s1 val else (some "", s1)
      (.ok (.envSet v val hooked.1), hooked.2)
  | _ => (.error "TypeError: epicsEnvSet missing arguments", s)

/-- `ShellState.handle_epicsEnvShow`. -/
def handle_epicsEnvShow : HandlerFn := fun _ s _ =>
  (.ok (.macroDefs s.macroDefs), s)

/-- `ShellState.handle_iocshCmd`: return the recursive re-invocation marker. -/
def handle_iocshCmd : HandlerFn := fun _ s args =>
  match args with
  | c :: _ => (.ok (.cmdArgs (get_load_context s) c), s)
  | _ => (.error "TypeError: iocshCmd missing argument", s)

/-- `ShellState.handle_cd` (and its alias `handle_chdir`). -/
def handle_cd : HandlerFn := fun env s args =>
  match args with
  | p :: _ =>
      let path := _fix_path s p
      let new_dir := if isAbs path then path else pathJoin s.working_directory path
      if env.path_exists new_dir then
        let r := env.resolve new_dir
        (.ok (.str ("New working directory: " ++ r)), { s with working_directory := r })
      else
        (.error ("RuntimeError: Path does not exist: " ++ new_dir), s)
  | _ => (.error "TypeError: cd missing argument", s)

/-- `ShellState.handle_iocInit`: set the irreversible flag, return `None`. -/
def handle_iocInit : HandlerFn := fun _ s _ =>
  (.ok .pyNone, { s with ioc_initialized := true })

/-- `ShellState.handle_dbLoadDatabase`: raise after `iocInit`; return the
non-fatal TODO marker when a schema is already attached; otherwise load and
attach the schema. -/
def handle_dbLoadDatabase : HandlerFn := fun env s args =>
  match args with
  | dbd :: rest =>
      if s.ioc_initialized then
        (.error "RuntimeError: Database cannot be loaded after iocInit", s)
      else if s.database_definition.isSome then
        (.ok (.str "whatrecord: TODO multiple dbLoadDatabase"), s)
      else
        match load_file env s dbd with
        | (.error e, s1) => (.error e, s1)
        | (.ok fc, s1) =>
            let substitutions := (rest.get? 1).getD ""
            let macros := if substitutions ≠ "" then env.defs_to_dict substitutions else []
            match env.db_from_string fc.2 fc.1 (pyUpdate s1.macroDefs macros) with
            | .error e => (.error e, s1)
            | .ok dbdef =>
                (.ok (.str ("Loaded database: " ++ fc.1)),
                 { s1 with database_definition := some dbdef })
  | _ => (.error "TypeError: dbLoadDatabase missing argument", s)

/-- The classic-record merge loop of `handle_dbLoadRecords`: a new name is
inserted with the load context prepended to its own; an existing name has the
new context appended and the new fields merged over the old. -/
def db_merge_records (ctx : List LoadCtx) :
    List (String × RecordInstance) → List (String × RecordInstance) →
    List (String × RecordInstance)
  | [], db => db
  | (name, rec) :: rest, db =>
      match pyGet db name with
      | none => db_merge_records ctx rest (pySet db name { rec with context := ctx ++ rec.context })
      | some entry =>
          db_merge_records ctx rest
            (pySet db name
              { entry with context := entry.context ++ rec.context,
                           fields := pyUpdate entry.fields rec.fields })

/-- The PVA-group merge loop of `handle_dbLoadRecords`, faithfully including
the source's `entry = self.database[name]` lookup in the already-present
branch (which consults the *classic* store and mutates it): returns the
updated `(database, pva_database)` pair, or the `KeyError` with the stores as
mutated so far. -/
def db_merge_pva (ctx : List LoadCtx) :
    List (String × RecordInstance) → List (String × RecordInstance) →
    List (String × RecordInstance) →
    (Option String) × List (String × RecordInstance) × List (String × RecordInstance)
  | [], db, pva => (none, db, pva)
  | (name, rec) :: rest, db, pva =>
      if (pyGet pva name).isNone then
        db_merge_pva ctx rest db (pySet pva name { rec with context := ctx ++ rec.context })
      else
        match pyGet db name with
        | none => (some ("KeyError: " ++ pyRepr name), db, pva)
        | some entry =>
            db_merge_pva ctx rest
              (pySet db name
                { entry with context := entry.context ++ rec.context,
                             fields := pyUpdate entry.fields rec.fields })
              pva

/-- `ShellState.handle_dbLoadRecords`: raise without a schema or after
`iocInit`; otherwise parse the file and merge records and PVA groups into the
global stores. -/
def handle_dbLoadRecords : HandlerFn := fun env s args =>
  match args with
  | filename :: macroStr :: _ =>
      if s.database_definition.isNone then
        (.error "RuntimeError: dbd not yet loaded", s)
      else if s.ioc_initialized then
        (.error "RuntimeError: Records cannot be loaded after iocInit", s)
      else
        match load_file env s filename with
        | (.error e, s1) => (.error e, s1)
        | (.ok fc, s1) =>
            let macros := env.defs_to_dict macroStr
            match env.db_from_file fc.1 (pyUpdate s1.macroDefs macros) with
            | .error ex =>
                (.error ("DatabaseLoadFailure: Failed to load " ++ fc.1 ++ ": " ++ ex), s1)
            | .ok db =>
                let context := get_load_context s1
                let database2 := db_merge_records context db.records s1.database
                let merged := db_merge_pva context db.pva_groups database2 s1.pva_database
                let s2 := { s1 with database := merged.2.1, pva_database := merged.2.2 }
                match merged.1 with
                | some e => (.error e, s2)
                | none => (.ok (.linter (db.records.map (fun p => p.1)) macros), s2)
  | _ => (.error "TypeError: dbLoadRecords missing arguments", s)

/-- `ShellState.handle_dbl`. -/
def handle_dbl : HandlerFn := fun _ s _ => (.ok (.strList []), s)

/-- `ShellState.handle_NDPvaConfigure`: implicitly create a PVA group named
`pvName` (the 6th argument); no-op when it is absent. -/
def handle_NDPvaConfigure : HandlerFn := fun _ s args =>
  match args.get? 5 with
  | none => (.ok .pyNone, s)
  | some pvName =>
      let md : List (String × String) :=
        [("portName", (args.get? 0).getD ""), ("queueSize", (args.get? 1).getD ""),
         ("blockingCallbacks", (args.get? 2).getD ""), ("NDArrayPort", (args.get? 3).getD ""),
         ("NDArrayAddr", (args.get? 4).getD ""), ("pvName", pvName),
         ("maxBuffers", (args.get? 6).getD ""), ("maxMemory", (args.get? 7).getD ""),
         ("priority", (args.get? 8).getD ""), ("stackSize", (args.get? 9).getD "")]
      let inst : RecordInstance :=
        { context := get_load_context s, name := pvName, record_type := "PVA",
          fields := [], is_pva := true, metadata := [("areaDetector", md)] }
      (.ok (.ndMetadata md),
       { s with pva_database := pySet s.pva_database pvName inst })

/-- `ShellState.handle_drvAsynSerialPortConfigure`: silently no-op without a
port name; otherwise register an `AsynSerialPort`. -/
def handle_drvAsynSerialPortConfigure : HandlerFn := fun _ s args =>
  let portName := (args.get? 0).getD ""
  if portName == "" then (.ok .pyNone, s)
  else
    let port : AsynPort :=
      { kind := "serial", context := get_load_context s, name := portName,
        info := [("ttyName", args.get? 1), ("priority", args.get? 2),
                 ("noAutoConnect", args.get? 3), ("noProcessEos", args.get? 4)] }
    (.ok .pyNone, { s with asyn_ports := pySet s.asyn_ports portName port })

/-- `ShellState.handle_drvAsynIPPortConfigure`: register an `AsynIPPort` when
a port name is given. -/
def handle_drvAsynIPPortConfigure : HandlerFn := fun _ s args =>
  let portName := (args.get? 0).getD ""
  if portName == "" then (.ok .pyNone, s)
  else
    let port : AsynPort :=
      { kind := "ip", context := get_load_context s, name := portName,
        info := [("hostInfo", args.get? 1), ("priority", args.get? 2),
                 ("noAutoConnect", args.get? 3), ("noProcessEos", args.get? 4)] }
    (.ok .pyNone, { s with asyn_ports := pySet s.asyn_ports portName port })

/-- The body of `handle_adsAsynPortDriverConfigure` (before `_motor_wrapper`):
register an `AdsAsynPort` when a port name is given. -/
def adsAsynPortDriverConfigure_body : HandlerFn := fun _ s args =>
  let portName := (args.get? 0).getD ""
  if portName == "" then (.ok .pyNone, s)
  else
    let port : AsynPort :=
      { kind := "ads", context := get_load_context s, name := portName,
        info := [("ipaddr", args.get? 1), ("amsaddr", args.get? 2),
                 ("amsport", args.get? 3), ("asynParamTableSize", args.get? 4),
                 ("priority", args.get? 5), ("noAutoConnect", args.get? 6),
                 ("defaultSampleTimeMS", args.get? 7), ("maxDelayTimeMS", args.get? 8),
                 ("adsTimeoutMS", args.get? 9), ("defaultTimeSource", args.get? 10)] }
    (.ok .pyNone, { s with asyn_ports := pySet s.asyn_ports portName port })

/-- `ShellState.handle_adsAsynPortDriverConfigure` (wrapped). -/
def handle_adsAsynPortDriverConfigure : HandlerFn :=
  _motor_wrapper "adsAsynPortDriverConfigure" adsAsynPortDriverConfigure_body

/-- `ShellState.handle_asynSetOption`: look the port up (raising `KeyError`
when unregistered), then store the option on the port or on its addressed
sub-device for multi-device ports. -/
def handle_asynSetOption : HandlerFn := fun _ s args =>
  match args with
  | name :: addr :: key :: value :: _ =>
      match pyGet s.asyn_ports name with
      | none => (.error ("KeyError: " ++ pyRepr name), s)
      | some port =>
          let opt : AsynPortOption := { context := get_load_context s, key := key, value := value }
          if port.kind == "multi" then
            match pyGet port.devices addr with
            | none => (.error ("KeyError: " ++ pyRepr addr), s)
            | some dev =>
                let dev' := { dev with options := pySet dev.options key opt }
                let port' := { port with devices := pySet port.devices addr dev' }
                (.ok .pyNone, { s with asyn_ports := pySet s.asyn_ports name port' })
          else
            let port' := { port with options := pySet port.options key opt }
            (.ok .pyNone, { s with asyn_ports := pySet s.asyn_ports name port' })
  | _ => (.error "TypeError: asynSetOption missing arguments", s)

/-- The body of `handle_drvAsynMotorConfigure` (before `_motor_wrapper`):
register an `AsynMotor` — unconditionally, under whatever `port_name` was
given (defaulting to the empty string), with no parent. -/
def drvAsynMotorConfigure_body : HandlerFn := fun _ s args =>
  let port_name := (args.get? 0).getD ""
  let port : AsynPort :=
    { kind := "motor", context := get_load_context s, name := port_name, parent := none,
      metadata := [("num_axes", (args.get? 3).getD "0"), ("card_num", (args.get? 2).getD "0"),
                   ("driver_name", (args.get? 1).getD "")] }
  (.ok .pyNone, { s with asyn_ports := pySet s.asyn_ports port_name port })

/-- `ShellState.handle_drvAsynMotorConfigure` (wrapped). -/
def handle_drvAsynMotorConfigure : HandlerFn :=
  _motor_wrapper "drvAsynMotorConfigure" drvAsynMotorConfigure_body

/-- The body of `handle_EthercatMCCreateController` (before `_motor_wrapper`):
look the parent asyn port up (raising `KeyError` when unregistered), then tie
the new motor to the parent's `motors` dict and register it as a top-level
port with `parent` set to the parent's name. -/
def EthercatMCCreateController_body : HandlerFn := fun _ s args =>
  let motor_port := (args.get? 0).getD ""
  let asyn_port := (args.get? 1).getD ""
  match pyGet s.asyn_ports asyn_port with
  | none => (.error ("KeyError: " ++ pyRepr asyn_port), s)
  | some port =>
      let md : AsynMotorData :=
        { context := get_load_context s, name := motor_port, parent := some asyn_port,
          metadata := [("num_axes", (args.get? 2).getD "0"),
                       ("move_poll_rate", (args.get? 3).getD "0.0"),
                       ("idle_poll_rate", (args.get? 4).getD "0.0")] }
      let motor : AsynPort :=
        { kind := "motor", context := md.context, name := motor_port,
          parent := some asyn_port, metadata := md.metadata }
      let port' := { port with motors := pySet port.motors motor_port md }
      let ports' := pySet (pySet s.asyn_ports asyn_port port') motor_port motor
      (.ok .pyNone, { s with asyn_ports := ports' })

/-- `ShellState.handle_EthercatMCCreateController` (wrapped). -/
def handle_EthercatMCCreateController : HandlerFn :=
  _motor_wrapper "EthercatMCCreateController" EthercatMCCreateController_body

/-- The handler table `ShellState._handlers` as populated by `find_handlers`
(every `handle_*` method except `handle_command`, which is dispatched
specially below to allow its self-recursion). -/
def handlersTable : List (String × HandlerFn) :=
  [("EthercatMCCreateController", handle_EthercatMCCreateController),
   ("NDPvaConfigure", handle_NDPvaConfigure),
   ("adsAsynPortDriverConfigure", handle_adsAsynPortDriverConfigure),
   ("asynSetOption", handle_asynSetOption),
   ("cd", handle_cd),
   ("chdir", handle_cd),
   ("dbLoadDatabase", handle_dbLoadDatabase),
   ("dbLoadRecords", handle_dbLoadRecords),
   ("dbl", handle_dbl),
   ("drvAsynIPPortConfigure", handle_drvAsynIPPortConfigure),
   ("drvAsynMotorConfigure", handle_drvAsynMotorConfigure),
   ("drvAsynSerialPortConfigure", handle_drvAsynSerialPortConfigure),
   ("epicsEnvSet", handle_epicsEnvSet),
   ("epicsEnvShow", handle_epicsEnvShow),
   ("iocInit", handle_iocInit),
   ("iocshCmd", handle_iocshCmd),
   ("iocshRegisterVariable", handle_iocshRegisterVariable)]

/-- `ShellState.handle_command`: look the handler up by exact name (the
reflection-discovered table also registers `handle_command` itself under the
name `command`); fall back to the dynamically registered motor-command family;
return the sentinel `unhandled` outcome (`None`, state untouched) otherwise. -/
def handle_command (env : Env) (s : ShellState) :
    String → List String → (Except String CmdResult) × ShellState
  | "command", [] => (.error "TypeError: handle_command missing argument", s)
  | "command", c :: rest => handle_command env s c rest
  | cmd, args =>
      match pyGet handlersTable cmd with
      | some h => h env s args
      | none =>
          match pyGet env.motor_commands cmd with
          | some schema => (.ok (.str (_generic_motor_handler schema args)), s)
          | none => (.ok .pyNone, s)

/-- What one interpreter invocation produces: the yielded per-line results,
the state as mutated (Python mutates in place), and a propagated exception
when strict mode re-raised one (or the recursion fuel ran out, a modelling
artifact standing for unbounded recursion). -/
structure InterpOut where
  results : List IocshResultM
  state : ShellState
  err : Option String
deriving DecidableEq, Repr

/-- The fuel-exhaustion marker (models the source's unbounded recursion on
self-including scripts; see spec §9). -/
def fuelErr : String := "whatrecord-model: recursion fuel exhausted"

/-- `load_ctx.line = lineno`: update the line number of the stack entry
pushed for the current file (identified by its id). -/
def setCtxLine (myId : Nat) (lineno : Nat) (s : ShellState) : ShellState :=
  { s with load_context :=
      s.load_context.map (fun c => if c.id == myId then { c with line := lineno } else c) }

/-- `enumerate(lines, 1)`. -/
def enumerate1 (lines : List String) : List (Nat × String) :=
  lines.enum.map (fun p => (p.1 + 1, p.2))

mutual

/-- `ShellState.interpret_shell_line`: parse the line; on a parse error yield
it; on an input redirect recurse into the redirected file (when allowed); on
a command dispatch it, capturing handler exceptions as line errors unless
strict mode re-raises, and recursively interpreting an `IocshCmdArgs` result
(with strict mode *not* forwarded, matching the source's call). -/
def interpret_shell_line (fuel : Nat) (env : Env) (recurse strict : Bool)
    (line : String) (s : ShellState) : InterpOut :=
  match fuel with
  | 0 => ⟨[], s, some fuelErr⟩
  | f + 1 =>
      let p := env.parse_line line (get_load_context s) s.macroDefs
      let sh : IocshResultM :=
        { line := p.line, argv := p.argv, redirects := p.redirects, error := p.error }
      let input_redirects := p.redirects.filter (fun r => r.mode == "r")
      if p.error.isSome then ⟨[sh], s, none⟩
      else if !input_redirects.isEmpty then
        if recurse then
          _handle_input_redirect f env recurse strict
            (input_redirects.headD {}) sh s
        else ⟨[], s, none⟩
      else if !p.argv.isEmpty then
        match handle_command env s (p.argv.headD "") p.argv.tail with
        | (.error e, s') =>
            if strict then ⟨[], s', some e⟩
            else ⟨[{ sh with error := some ("Failed to execute: " ++ e) }], s', none⟩
        | (.ok r, s') =>
            let sh' := { sh with result := some r }
            match r with
            | .cmdArgs _ cmd =>
                let out := interpret_shell_line f env recurse false cmd s'
                ⟨sh' :: out.results, out.state, out.err⟩
            | _ => ⟨[sh'], s', none⟩
      else ⟨[sh], s, none⟩

/-- `ShellState._handle_input_redirect`: load the redirected file (a load
failure becomes a line error) and interpret it as a nested script (strict
mode is not forwarded by the source's call). -/
def _handle_input_redirect (fuel : Nat) (env : Env) (recurse strict : Bool)
    (redir : IocshRedirect) (sh : IocshResultM) (s : ShellState) : InterpOut :=
  match fuel with
  | 0 => ⟨[], s, some fuelErr⟩
  | f + 1 =>
      match load_file env s redir.name with
      | (.error e, s1) => ⟨[{ sh with error := some (e ++ ": " ++ redir.name) }], s1, none⟩
      | (.ok fc, s1) =>
          let out := interpret_shell_script f env recurse false fc.1 (pySplitlines fc.2) s1
          ⟨sh :: out.results, out.state, out.err⟩

/-- `ShellState.interpret_shell_script`: push a fresh load-context entry for
this file, interpret the lines, and — `finally` — remove that entry again on
every exit path. -/
def interpret_shell_script (fuel : Nat) (env : Env) (recurse strict : Bool)
    (name : String) (lines : List String) (s : ShellState) : InterpOut :=
  match fuel with
  | 0 => ⟨[], s, some fuelErr⟩
  | f + 1 =>
      let myId := s.ctx_counter
      let s1 := { s with load_context := s.load_context ++ [⟨myId, name, 0⟩],
                         ctx_counter := myId + 1 }
      let out := interpret_shell_script_loop f env recurse strict myId (enumerate1 lines) s1
      ⟨out.results,
       { out.state with load_context := out.state.load_context.eraseP (fun c => c.id == myId) },
       out.err⟩

/-- The line loop of `interpret_shell_script`: set the current entry's line
number, interpret the line, and stop early when an exception propagates. -/
def interpret_shell_script_loop (fuel : Nat) (env : Env) (recurse strict : Bool)
    (myId : Nat) (lines : List (Nat × String)) (s : ShellState) : InterpOut :=
  match fuel, lines with
  | _, [] => ⟨[], s, none⟩
  | 0, _ :: _ => ⟨[], s, some fuelErr⟩
  | f + 1, (lineno, line) :: rest =>
      let s1 := setCtxLine myId lineno s
      let out := interpret_shell_line f env recurse strict line s1
      match out.err with
      | some e => ⟨out.results, out.state, some e⟩
      | none =>
          let out2 := interpret_shell_script_loop f env recurse strict myId rest out.state
          ⟨out.results ++ out2.results, out2.state, out2.err⟩

end

/-- `whatrec` (module level): look the name up in both namespaces; resolve
the record's asyn port and, when that port names a parent, insert the parent
registry lookup (possibly `none`) ahead of it. -/
def get_asyn_port_from_record (s : ShellState) (inst : RecordInstance) : Option AsynPort :=
  match (pyGet inst.fields "INP").orElse (fun _ => pyGet inst.fields "OUT") with
  | none => none
  | some rec_field =>
      let value := pyStripWs rec_field.value
      if pyStartsWith value "@asyn" then
        let asyn_args := pyStrip [' ', '(', ')'] (((pySplitOn value "@asyn").drop 1).headD "")
        let asyn_port := (pySplitOn asyn_args ",").headD ""
        pyGet s.asyn_ports (pyStripWs asyn_port)
      else none

/-- The "what-record" query result (`common.WhatRecord` as populated by
`whatrec`; the port list may contain `none` for a failed parent lookup). -/
structure WhatRec where
  name : String
  owner : Option String := none
  instances : List RecordInstance := []
  asyn_ports : List (Option AsynPort) := []
  ioc : Option String := none
deriving DecidableEq, Repr

/-- `whatrec(state, rec, field, include_pva)`: `none` when the name is in
neither namespace; otherwise bundle the matched instance(s) with any linked
asyn ports (`field_` is accepted and ignored, as in the source). -/
def whatrec (s : ShellState) (rec : String) (field_ : Option String := none)
    (include_pva : Bool := true) : Option WhatRec :=
  let v3_inst := pyGet s.database rec
  let pva_inst := if include_pva then pyGet s.pva_database rec else none
  if v3_inst.isNone && pva_inst.isNone then none
  else
    let asyn_ports : List (Option AsynPort) :=
      match v3_inst with
      | none => []
      | some inst =>
          match get_asyn_port_from_record s inst with
          | none => []
          | some asyn_port =>
              match asyn_port.parent with
              | none => [some asyn_port]
              | some parent_port => [pyGet s.asyn_ports parent_port, some asyn_port]
    some { name := rec,
           instances := v3_inst.toList ++ pva_inst.toList,
           asyn_ports := asyn_ports }

/-- `common.IocMetadata`, reduced to the field `add_script` reads. -/
structure IocMetadataM where
  script : String := ""
deriving DecidableEq, Repr

/-- `LoadedIoc`, reduced to the fields `ScriptContainer` reads. -/
structure LoadedIoc where
  name : String := ""
  path : String := ""
  metadata : IocMetadataM := {}
  shell_state : ShellState := {}
deriving DecidableEq, Repr

/-- `ScriptContainer`: the aggregated view over completed shell states. -/
structure ScriptContainer where
  database : List (String × RecordInstance) := []
  pva_database : List (String × RecordInstance) := []
  scripts : List (String × LoadedIoc) := []
  loaded_files : List (String × String) := []
deriving DecidableEq, Repr

/-- `ScriptContainer.add_script`: store the loaded IOC under its script path
and `dict.update` the three combined mappings from its shell state. -/
def add_script (c : ScriptContainer) (loaded : LoadedIoc) : ScriptContainer :=
  { c with scripts := pySet c.scripts loaded.metadata.script loaded,
           database := pyUpdate c.database loaded.shell_state.database,
           pva_database := pyUpdate c.pva_database loaded.shell_state.pva_database,
           loaded_files := pyUpdate c.loaded_files loaded.shell_state.loaded_files }

/-! ## Dictionary lemmas -/

theorem pyGet_pySet_self {α : Type} (d : List (String × α)) (k : String) (v : α) :
    pyGet (pySet d k v) k = some v := by
  induction d with
  | nil => simp [pyGet, pySet]
  | cons p rest ih =>
      by_cases h : p.1 == k
      · simp [pyGet, pySet, h]
      · simp [pyGet, pySet, h, ih]

theorem pyGet_pySet_ne {α : Type} (d : List (String × α)) (k k' : String) (v : α)
    (h : k ≠ k') : pyGet (pySet d k v) k' = pyGet d k' := by
  induction d with
  | nil => simp [pyGet, pySet, h]
  | cons p rest ih =>
      by_cases hp : p.1 == k
      · have h1 : p.1 = k := by simpa using hp
        simp [pyGet, pySet, hp, h, h1]
      · simp [pyGet, pySet, hp, ih]

theorem pyGet_eq_none_of_not_mem {α : Type} (d : List (String × α)) (k : String)
    (h : k ∉ d.map Prod.fst) : pyGet d k = none := by
  induction d with
  | nil => rfl
  | cons p rest ih =>
      simp only [List.map_cons, List.mem_cons] at h
      push_neg at h
      have : (p.1 == k) = false := by
        simp only [beq_eq_false_iff_ne]
        exact fun hh => h.1 hh.symm
      simp only [pyGet, this, if_false]
      exact ih h.2

theorem pyUpdate_nil {α : Type} (d : List (String × α)) : pyUpdate d [] = d := rfl

theorem pyUpdate_cons {α : Type} (d : List (String × α)) (p : String × α)
    (rest : List (String × α)) :
    pyUpdate d (p :: rest) = pyUpdate (pySet d p.1 p.2) rest := rfl

theorem pyGet_pyUpdate_of_none {α : Type} (d other : List (String × α)) (k : String)
    (h : pyGet other k = none) : pyGet (pyUpdate d other) k = pyGet d k := by
  induction other generalizing d with
  | nil => rfl
  | cons p rest ih =>
      simp only [pyGet] at h
      by_cases hp : p.1 == k
      · simp [hp] at h
      · simp only [hp, if_false] at h
        rw [pyUpdate_cons, ih _ h, pyGet_pySet_ne]
        exact fun hh => by simp [hh] at hp

theorem pyGet_pyUpdate_of_some {α : Type} (d other : List (String × α)) (k : String)
    (v : α) (h : pyGet other k = some v) (hn : (other.map Prod.fst).Nodup) :
    pyGet (pyUpdate d other) k = some v := by
  induction other generalizing d with
  | nil => simp [pyGet] at h
  | cons p rest ih =>
      simp only [List.map_cons, List.nodup_cons] at hn
      simp only [pyGet] at h
      by_cases hp : p.1 == k
      · simp only [hp, if_true] at h
        have hk : p.1 = k := by simpa using hp
        have hrest : pyGet rest k = none := by
          apply pyGet_eq_none_of_not_mem
          rw [← hk]; exact hn.1
        rw [pyUpdate_cons, pyGet_pyUpdate_of_none _ _ _ hrest, hk,
          pyGet_pySet_self]
        exact congrArg some (Option.some.inj h)
      · simp only [hp, if_false] at h
        rw [pyUpdate_cons, ih _ h hn.2]

/-- Last-write-wins per-key reading of `dict.update` (for an update dict with
unique keys, as every Python dict has). -/
theorem pyGet_pyUpdate {α : Type} (d other : List (String × α)) (k : String)
    (hn : (other.map Prod.fst).Nodup) :
    pyGet (pyUpdate d other) k = (pyGet other k).or (pyGet d k) := by
  cases h : pyGet other k with
  | none => simp [pyGet_pyUpdate_of_none _ _ _ h, Option.or]
  | some v => simp [pyGet_pyUpdate_of_some _ _ _ _ h hn, Option.or]

/-! ## A concrete environment for witnesses

`envW` is a minimal closed `Env`: every file reads as empty with hash
`"sha0"`, database parses yield empty results, paths exist, resolution is the
identity, and line parsing splits on spaces with no redirects. -/

def envW : Env :=
  { read_file := fun _ => .ok ("sha0", ""),
    db_from_string := fun _ _ _ => .ok {},
    db_from_file := fun _ _ => .ok {},
    path_exists := fun _ => true,
    resolve := id,
    parse_line := fun line _ _ =>
      { line := line, argv := (pySplitOn line " ").filter (fun t => t ≠ ""),
        redirects := [], error := none },
    defs_to_dict := fun _ => [],
    motor_commands := [],
    default_base_version := "7.0.3.1" }

/-! ## C5 — stand-in path substitution -/

/-- `find?` returns the element at the earliest index satisfying the
predicate. -/
theorem find?_eq_of_earliest {α : Type} (l : List α) (q : α → Bool) :
    ∀ i x, l.get? i = some x → q x = true →
    (∀ j y, j < i → l.get? j = some y → q y = false) →
    l.find? q = some x := by
  induction l with
  | nil => intro i x h _ _; simp at h
  | cons a rest ih =>
      intro i x hget hq hearlier
      cases i with
      | zero =>
          simp only [List.get?] at hget
          cases hget
          simp [List.find?_cons, hq]
      | succ n =>
          have ha : q a = false := hearlier 0 a (Nat.succ_pos n) rfl
          simp only [List.find?_cons, ha, cond_false]
          exact ih n x hget hq
            (fun j y hj hy => hearlier (j + 1) y (Nat.succ_lt_succ hj) hy)

/-- A state whose stand-in table holds a short prefix inserted before a
longer one that also matches. -/
def c5_state : ShellState :=
  { standin_directories := [("/a", "/X"), ("/a/b", "/Y")] }

/-- C5 counterexample: with both `"/a"` (inserted first) and the longer
`"/a/b"` matching `"/a/b/c"`, `_fix_path` rewrites the *first-inserted*
prefix, producing `"/X/b/c"`, not the longest-prefix rewrite `"/Y/c"`. -/
theorem c5_counterexample :
    _fix_path c5_state "/a/b/c" = "/X/b/c" ∧
    pyStartsWith "/a/b/c" "/a/b" = true ∧
    pyLen "/a" < pyLen "/a/b" ∧
    _fix_path c5_state "/a/b/c" ≠ "/Y/c" := by
  refine ⟨by decide, by decide, by decide, by decide⟩

/-- C5 (amended): for an absolute path, `_fix_path` rewrites the prefix of
the *earliest-inserted* matching substitution entry (not the longest); a
relative path, or an absolute path with no matching entry, is joined onto the
current working directory. -/
theorem c5_amended (s : ShellState) (filename : String) :
    (isAbs filename = false →
      _fix_path s filename = pathJoin s.working_directory filename) ∧
    (∀ i fr dst, isAbs filename = true →
      s.standin_directories.get? i = some (fr, dst) →
      pyStartsWith filename fr = true →
      (∀ j p, j < i → s.standin_directories.get? j = some p →
        pyStartsWith filename p.1 = false) →
      _fix_path s filename = dst ++ pyDrop filename (pyLen fr)) ∧
    ((∀ p, p ∈ s.standin_directories → pyStartsWith filename p.1 = false) →
      _fix_path s filename = pathJoin s.working_directory filename) := by
  refine ⟨?_, ?_, ?_⟩
  · intro h
    simp [_fix_path, h]
  · intro i fr dst habs hget hpre hearlier
    have hfind : s.standin_directories.find? (fun p => pyStartsWith filename p.1)
        = some (fr, dst) :=
      find?_eq_of_earliest _ _ i (fr, dst) hget hpre hearlier
    simp [_fix_path, habs, hfind]
  · intro hnone
    have hfind : s.standin_directories.find? (fun p => pyStartsWith filename p.1)
        = none := by
      rw [List.find?_eq_none]
      intro p hp
      simp [hnone p hp]
    by_cases habs : isAbs filename
    · simp [_fix_path, habs, hfind]
    · simp [_fix_path, habs]

/-- C5 witness: a concrete absolute path whose first-inserted matching
prefix is rewritten, and a concrete relative path joined onto the cwd. -/
theorem c5_amended_witness :
    isAbs "/p/x.db" = true ∧
    c5_state.standin_directories.get? 0 = some ("/a", "/X") ∧
    _fix_path { standin_directories := [("/p", "/q")] } "/p/x.db"
      = "/q" ++ pyDrop "/p/x.db" (pyLen "/p") ∧
    _fix_path c5_state "rel.db" = pathJoin c5_state.working_directory "rel.db" := by
  refine ⟨by decide, by rfl, ?_, ?_⟩
  · exact (c5_amended { standin_directories := [("/p", "/q")] } "/p/x.db").2.1 0 "/p" "/q"
      (by decide) (by rfl) (by decide) (fun j p hj hp => absurd hj (by simp))
  · exact (c5_amended c5_state "rel.db").1 (by decide)

/-! ## Stack preservation of command handlers (towards C9)

No command handler touches the load-context stack or the context-id counter:
only `interpret_shell_script` pushes and pops entries. -/

theorem pyGet_mem {α : Type} : ∀ {d : List (String × α)} {k : String} {v : α},
    pyGet d k = some v → (k, v) ∈ d := by
  intro d
  induction d with
  | nil => intro k v h; simp [pyGet] at h
  | cons p rest ih =>
      intro k v h
      by_cases hp : p.1 == k
      · have hk : p.1 = k := by simpa using hp
        simp only [pyGet, hp, if_true, Option.some.injEq] at h
        subst hk h
        exact List.mem_cons_self _ _
      · simp only [pyGet, hp, if_false] at h
        exact List.mem_cons_of_mem _ (ih h)

/-- A handler neither modifies the load-context stack nor the id counter. -/
def PreservesStack (f : HandlerFn) : Prop :=
  ∀ env s args,
    (f env s args).2.load_context = s.load_context ∧
    (f env s args).2.ctx_counter = s.ctx_counter

theorem load_file_preserves (env : Env) (s : ShellState) (f : String) :
    (load_file env s f).2.load_context = s.load_context ∧
    (load_file env s f).2.ctx_counter = s.ctx_counter := by
  unfold load_file
  dsimp only
  split <;> exact ⟨rfl, rfl⟩

theorem env_set_EPICS_BASE_preserves (env : Env) (s : ShellState) (p : String) :
    (env_set_EPICS_BASE env s p).2.load_context = s.load_context ∧
    (env_set_EPICS_BASE env s p).2.ctx_counter = s.ctx_counter := by
  unfold env_set_EPICS_BASE
  dsimp only
  split
  · exact ⟨rfl, rfl⟩
  · split <;> exact ⟨rfl, rfl⟩

theorem hp_iocshRegisterVariable : PreservesStack handle_iocshRegisterVariable := by
  intro env s args
  unfold handle_iocshRegisterVariable
  split <;> exact ⟨rfl, rfl⟩

theorem hp_epicsEnvSet : PreservesStack handle_epicsEnvSet := by
  intro env s args
  unfold handle_epicsEnvSet
  split
  · dsimp only
    split
    · exact env_set_EPICS_BASE_preserves env _ _
    · exact ⟨rfl, rfl⟩
  · exact ⟨rfl, rfl⟩

theorem hp_epicsEnvShow : PreservesStack handle_epicsEnvShow :=
  fun _ _ _ => ⟨rfl, rfl⟩

theorem hp_iocshCmd : PreservesStack handle_iocshCmd := by
  intro env s args
  unfold handle_iocshCmd
  split <;> exact ⟨rfl, rfl⟩

theorem hp_cd : PreservesStack handle_cd := by
  intro env s args
  unfold handle_cd
  split
  · dsimp only
    split <;> split <;> exact ⟨rfl, rfl⟩
  · exact ⟨rfl, rfl⟩

theorem hp_iocInit : PreservesStack handle_iocInit :=
  fun _ _ _ => ⟨rfl, rfl⟩

theorem hp_dbLoadDatabase : PreservesStack handle_dbLoadDatabase := by
  intro env s args
  unfold handle_dbLoadDatabase
  split
  case _ dbd rest =>
    split
    · exact ⟨rfl, rfl⟩
    · split
      · exact ⟨rfl, rfl⟩
      · split
        case _ e s1 heq =>
          have h := load_file_preserves env s dbd
          rw [heq] at h
          exact h
        case _ fc s1 heq =>
          have h := load_file_preserves env s dbd
          rw [heq] at h
          dsimp only
          split <;> exact h
  case _ => exact ⟨rfl, rfl⟩

theorem hp_dbLoadRecords : PreservesStack handle_dbLoadRecords := by
  intro env s args
  unfold handle_dbLoadRecords
  split
  case _ filename macroStr rest =>
    split
    · exact ⟨rfl, rfl⟩
    · split
      · exact ⟨rfl, rfl⟩
      · split
        case _ e s1 heq =>
          have h := load_file_preserves env s filename
          rw [heq] at h
          exact h
        case _ fc s1 heq =>
          have h := load_file_preserves env s filename
          rw [heq] at h
          dsimp only
          split
          · exact h
          · split <;> exact h
  case _ => exact ⟨rfl, rfl⟩

theorem hp_dbl : PreservesStack handle_dbl :=
  fun _ _ _ => ⟨rfl, rfl⟩

theorem hp_NDPvaConfigure : PreservesStack handle_NDPvaConfigure := by
  intro env s args
  unfold handle_NDPvaConfigure
  split <;> exact ⟨rfl, rfl⟩

theorem hp_drvAsynSerialPortConfigure : PreservesStack handle_drvAsynSerialPortConfigure := by
  intro env s args
  unfold handle_drvAsynSerialPortConfigure
  dsimp only
  split <;> exact ⟨rfl, rfl⟩

theorem hp_drvAsynIPPortConfigure : PreservesStack handle_drvAsynIPPortConfigure := by
  intro env s args
  unfold handle_drvAsynIPPortConfigure
  dsimp only
  split <;> exact ⟨rfl, rfl⟩

theorem hp_motor_wrapper (name : String) (f : HandlerFn) (hf : PreservesStack f) :
    PreservesStack (_motor_wrapper name f) := by
  intro env s args
  unfold _motor_wrapper
  split
  case _ e s' heq =>
    have h := hf env s args
    rw [heq] at h
    exact h
  case _ r s' heq =>
    have h := hf env s args
    rw [heq] at h
    dsimp only
    split <;> exact h

theorem hp_adsAsynPortDriverConfigure_body : PreservesStack adsAsynPortDriverConfigure_body := by
  intro env s args
  unfold adsAsynPortDriverConfigure_body
  dsimp only
  split <;> exact ⟨rfl, rfl⟩

theorem hp_adsAsynPortDriverConfigure : PreservesStack handle_adsAsynPortDriverConfigure :=
  hp_motor_wrapper _ _ hp_adsAsynPortDriverConfigure_body

theorem hp_asynSetOption : PreservesStack handle_asynSetOption := by
  intro env s args
  unfold handle_asynSetOption
  split
  · split
    · exact ⟨rfl, rfl⟩
    · dsimp only
      split
      · split <;> exact ⟨rfl, rfl⟩
      · exact ⟨rfl, rfl⟩
  · exact ⟨rfl, rfl⟩

theorem hp_drvAsynMotorConfigure_body : PreservesStack drvAsynMotorConfigure_body :=
  fun _ _ _ => ⟨rfl, rfl⟩

theorem hp_drvAsynMotorConfigure : PreservesStack handle_drvAsynMotorConfigure :=
  hp_motor_wrapper _ _ hp_drvAsynMotorConfigure_body

theorem hp_EthercatMCCreateController_body : PreservesStack EthercatMCCreateController_body := by
  intro env s args
  unfold EthercatMCCreateController_body
  dsimp only
  split <;> exact ⟨rfl, rfl⟩

theorem hp_EthercatMCCreateController : PreservesStack handle_EthercatMCCreateController :=
  hp_motor_wrapper _ _ hp_EthercatMCCreateController_body

theorem handlersTable_preserves :
    ∀ cmd f, pyGet handlersTable cmd = some f → PreservesStack f := by
  intro cmd f h
  have hall : List.Forall (fun p => PreservesStack p.2) handlersTable := by
    simp only [handlersTable, List.Forall]
    exact ⟨hp_EthercatMCCreateController, hp_NDPvaConfigure,
      hp_adsAsynPortDriverConfigure, hp_asynSetOption, hp_cd, hp_cd,
      hp_dbLoadDatabase, hp_dbLoadRecords, hp_dbl, hp_drvAsynIPPortConfigure,
      hp_drvAsynMotorConfigure, hp_drvAsynSerialPortConfigure, hp_epicsEnvSet,
      hp_epicsEnvShow, hp_iocInit, hp_iocshCmd, hp_iocshRegisterVariable⟩
  exact (List.forall_iff_forall_mem.mp hall) (cmd, f) (pyGet_mem h)

theorem handle_command_preserves (env : Env) :
    ∀ (args : List String) (s : ShellState) (cmd : String),
      (handle_command env s cmd args).2.load_context = s.load_context ∧
      (handle_command env s cmd args).2.ctx_counter = s.ctx_counter := by
  intro args
  induction args with
  | nil =>
      intro s cmd
      rw [handle_command.eq_def]
      split
      · exact ⟨rfl, rfl⟩
      · rename_i c rest heq
        exact List.noConfusion heq
      · split
        · rename_i f heq
          exact handlersTable_preserves _ f heq env s _
        · split <;> exact ⟨rfl, rfl⟩
  | cons a rest ih =>
      intro s cmd
      rw [handle_command.eq_def]
      split
      · rename_i heq
        exact List.noConfusion heq
      · rename_i c rest' heq
        injection heq with h1 h2
        subst h1 h2
        exact ih s a
      · split
        · rename_i f heq
          exact handlersTable_preserves _ f heq env s _
        · split <;> exact ⟨rfl, rfl⟩

/-! ## C9 — the load-context stack is restored on every exit path -/

/-- The allocation invariant of the context-id counter: every stack entry's
id was allocated below the counter.  (The counter is a modelling artifact
standing for Python object identity; every reachable state satisfies this,
and a fresh `ShellState` trivially does.) -/
def StackInv (s : ShellState) : Prop :=
  ∀ e ∈ s.load_context, e.id < s.ctx_counter

instance stackInvDecidable (s : ShellState) : Decidable (StackInv s) :=
  inferInstanceAs (Decidable (∀ e ∈ s.load_context, e.id < s.ctx_counter))

theorem stackInv_transport {s s' : ShellState} (hinv : StackInv s)
    (h1 : s'.load_context = s.load_context) (h2 : s.ctx_counter ≤ s'.ctx_counter) :
    StackInv s' := by
  intro e he
  rw [h1] at he
  exact lt_of_lt_of_le (hinv e he) h2

/-- The common "state changed in neither stack nor counter" conclusion. -/
theorem triple_of_eq {s s' : ShellState} (hinv : StackInv s)
    (h1 : s'.load_context = s.load_context) (h2 : s'.ctx_counter = s.ctx_counter) :
    s'.load_context = s.load_context ∧ s.ctx_counter ≤ s'.ctx_counter ∧ StackInv s' :=
  ⟨h1, le_of_eq h2.symm, stackInv_transport hinv h1 (le_of_eq h2.symm)⟩

theorem map_id_of {α : Type} (L : List α) (g : α → α) (h : ∀ x ∈ L, g x = x) :
    L.map g = L := by
  induction L with
  | nil => rfl
  | cons a rest ih =>
      simp only [List.map_cons, h a (List.mem_cons_self a rest),
        ih (fun x hx => h x (List.mem_cons_of_mem _ hx))]

theorem setCtxLine_lc {s : ShellState} {L : List LoadCtxEntry} {myId : Nat}
    {nm : String} {k : Nat} (hlc : s.load_context = L ++ [⟨myId, nm, k⟩])
    (hne : ∀ x ∈ L, x.id ≠ myId) (ln : Nat) :
    (setCtxLine myId ln s).load_context = L ++ [⟨myId, nm, ln⟩] := by
  unfold setCtxLine
  dsimp only
  rw [hlc, List.map_append]
  congr 1
  · exact map_id_of L _ (fun x hx => by
      have : (x.id == myId) = false := by simpa using hne x hx
      simp [this])
  · simp

theorem eraseP_append_last (L : List LoadCtxEntry) (e : LoadCtxEntry)
    (p : LoadCtxEntry → Bool) (hL : ∀ x ∈ L, p x = false) (he : p e = true) :
    (L ++ [e]).eraseP p = L := by
  induction L with
  | nil => simp [List.eraseP_cons, he]
  | cons a rest ih =>
      simp [List.eraseP_cons, hL a (List.mem_cons_self a rest),
        ih (fun x hx => hL x (List.mem_cons_of_mem _ hx))]

/-- The joint stack-preservation statement for the four mutually recursive
interpreter functions, proved by induction on the fuel: a line interpretation
and a redirect leave the load-context stack exactly as found; the script loop
keeps the shape `L ++ [own entry]` (only the line number of the own entry
moves); and a whole script invocation — push, loop, `finally` remove —
restores the stack on every exit path, normal, error-propagating, or
fuel-exhausted. -/
theorem interp_preserves : ∀ n : Nat,
    (∀ env recurse strict line s, StackInv s →
      ((interpret_shell_line n env recurse strict line s).state.load_context
          = s.load_context ∧
       s.ctx_counter ≤ (interpret_shell_line n env recurse strict line s).state.ctx_counter ∧
       StackInv (interpret_shell_line n env recurse strict line s).state)) ∧
    (∀ env recurse strict redir sh s, StackInv s →
      ((_handle_input_redirect n env recurse strict redir sh s).state.load_context
          = s.load_context ∧
       s.ctx_counter
          ≤ (_handle_input_redirect n env recurse strict redir sh s).state.ctx_counter ∧
       StackInv (_handle_input_redirect n env recurse strict redir sh s).state)) ∧
    (∀ env recurse strict myId lines s L nm k, StackInv s →
      s.load_context = L ++ [⟨myId, nm, k⟩] → (∀ x ∈ L, x.id ≠ myId) →
      ((∃ k', (interpret_shell_script_loop n env recurse strict myId lines s).state.load_context
            = L ++ [⟨myId, nm, k'⟩]) ∧
       s.ctx_counter
          ≤ (interpret_shell_script_loop n env recurse strict myId lines s).state.ctx_counter ∧
       StackInv (interpret_shell_script_loop n env recurse strict myId lines s).state)) ∧
    (∀ env recurse strict name lines s, StackInv s →
      ((interpret_shell_script n env recurse strict name lines s).state.load_context
          = s.load_context ∧
       s.ctx_counter
          ≤ (interpret_shell_script n env recurse strict name lines s).state.ctx_counter ∧
       StackInv (interpret_shell_script n env recurse strict name lines s).state)) := by
  intro n
  induction n with
  | zero =>
      refine ⟨?_, ?_, ?_, ?_⟩
      · intro env r b line s hinv
        exact ⟨rfl, le_refl _, hinv⟩
      · intro env r b redir sh s hinv
        exact ⟨rfl, le_refl _, hinv⟩
      · intro env r b myId lines s L nm k hinv hlc hne
        cases lines with
        | nil => exact ⟨⟨k, hlc⟩, le_refl _, hinv⟩
        | cons hd rest => exact ⟨⟨k, hlc⟩, le_refl _, hinv⟩
      · intro env r b name lines s hinv
        exact ⟨rfl, le_refl _, hinv⟩
  | succ f ih =>
      obtain ⟨ihL, ihR, ihLoop, ihS⟩ := ih
      refine ⟨?_, ?_, ?_, ?_⟩
      -- interpret_shell_line (f+1)
      · intro env r b line s hinv
        simp only [interpret_shell_line]
        split
        · exact ⟨rfl, le_refl _, hinv⟩
        · split
          · split
            · exact ihR env r b _ _ s hinv
            · exact ⟨rfl, le_refl _, hinv⟩
          · split
            · split
              · rename_i e s' heq
                have h := handle_command_preserves env
                  (env.parse_line line (get_load_context s) s.macroDefs).argv.tail s
                  ((env.parse_line line (get_load_context s) s.macroDefs).argv.headD "")
                rw [heq] at h
                split
                · exact triple_of_eq hinv h.1 h.2
                · exact triple_of_eq hinv h.1 h.2
              · rename_i r0 s' heq
                have h := handle_command_preserves env
                  (env.parse_line line (get_load_context s) s.macroDefs).argv.tail s
                  ((env.parse_line line (get_load_context s) s.macroDefs).argv.headD "")
                rw [heq] at h
                split
                · rename_i ctx0 cmd0
                  have hinv' : StackInv s' :=
                    stackInv_transport hinv h.1 (le_of_eq h.2.symm)
                  obtain ⟨hL1, hC1, hI1⟩ := ihL env r false cmd0 s' hinv'
                  refine ⟨hL1.trans h.1, ?_, hI1⟩
                  calc s.ctx_counter = s'.ctx_counter := h.2.symm
                    _ ≤ _ := hC1
                · exact triple_of_eq hinv h.1 h.2
            · exact ⟨rfl, le_refl _, hinv⟩
      -- _handle_input_redirect (f+1)
      · intro env r b redir sh s hinv
        simp only [_handle_input_redirect]
        split
        · rename_i e s1 heq
          have h := load_file_preserves env s redir.name
          rw [heq] at h
          exact triple_of_eq hinv h.1 h.2
        · rename_i fc s1 heq
          have h := load_file_preserves env s redir.name
          rw [heq] at h
          have hinv1 : StackInv s1 := stackInv_transport hinv h.1 (le_of_eq h.2.symm)
          obtain ⟨hL1, hC1, hI1⟩ := ihS env r false fc.1 (pySplitlines fc.2) s1 hinv1
          refine ⟨hL1.trans h.1, ?_, hI1⟩
          calc s.ctx_counter = s1.ctx_counter := h.2.symm
            _ ≤ _ := hC1
      -- interpret_shell_script_loop (f+1)
      · intro env r b myId lines s L nm k hinv hlc hne
        cases lines with
        | nil => exact ⟨⟨k, hlc⟩, le_refl _, hinv⟩
        | cons hd rest =>
            obtain ⟨lineno, line⟩ := hd
            simp only [interpret_shell_script_loop]
            have hlc1 : (setCtxLine myId lineno s).load_context
                = L ++ [⟨myId, nm, lineno⟩] := setCtxLine_lc hlc hne lineno
            have hmy : myId < s.ctx_counter := by
              apply hinv ⟨myId, nm, k⟩
              rw [hlc]
              exact List.mem_append_right _ (List.mem_singleton_self _)
            have hinv1 : StackInv (setCtxLine myId lineno s) := by
              intro e he
              rw [hlc1] at he
              rcases List.mem_append.mp he with h1 | h1
              · exact hinv e (by rw [hlc]; exact List.mem_append_left _ h1)
              · have : e = ⟨myId, nm, lineno⟩ := by simpa using h1
                subst this
                exact hmy
            obtain ⟨hL1, hC1, hI1⟩ := ihL env r b line (setCtxLine myId lineno s) hinv1
            split
            · rename_i e heq
              refine ⟨⟨lineno, ?_⟩, ?_, hI1⟩
              · rw [hL1, hlc1]
              · exact hC1
            · rename_i heq
              obtain ⟨⟨k2, hk2⟩, hC2, hI2⟩ := ihLoop env r b myId rest
                  (interpret_shell_line f env r b line (setCtxLine myId lineno s)).state
                  L nm lineno hI1 (hL1.trans hlc1) hne
              exact ⟨⟨k2, hk2⟩, le_trans hC1 hC2, hI2⟩
      -- interpret_shell_script (f+1)
      · intro env r b name lines s hinv
        simp only [interpret_shell_script]
        have hinv1 : StackInv { s with
            load_context := s.load_context ++ [⟨s.ctx_counter, name, 0⟩],
            ctx_counter := s.ctx_counter + 1 } := by
          intro e he
          rcases List.mem_append.mp he with h1 | h1
          · exact lt_trans (hinv e h1) (Nat.lt_succ_self _)
          · have : e = ⟨s.ctx_counter, name, 0⟩ := by simpa using h1
            subst this
            exact Nat.lt_succ_self _
        have hne : ∀ x ∈ s.load_context, x.id ≠ s.ctx_counter :=
          fun x hx => Nat.ne_of_lt (hinv x hx)
        obtain ⟨⟨k', hk'⟩, hC1, hI1⟩ := ihLoop env r b s.ctx_counter
            (enumerate1 lines)
            { s with load_context := s.load_context ++ [⟨s.ctx_counter, name, 0⟩],
                     ctx_counter := s.ctx_counter + 1 }
            s.load_context name 0 hinv1 rfl hne
        refine ⟨?_, ?_, ?_⟩
        · show (interpret_shell_script_loop f env r b s.ctx_counter (enumerate1 lines)
              _).state.load_context.eraseP (fun c => c.id == s.ctx_counter)
            = s.load_context
          rw [hk']
          refine eraseP_append_last _ _ _ (fun x hx => ?_) (by simp)
          simpa using hne x hx
        · exact le_trans (Nat.le_succ _) hC1
        · intro e he
          rw [hk', eraseP_append_last _ _ _
            (fun x hx => by simpa using hne x hx) (by simp)] at he
          apply hI1 e
          rw [hk']
          exact List.mem_append_left _ he

/-- C9: for every invocation of `interpret_shell_script` — whatever the
outcome, including a strict-mode propagated failure (`.err` set) and the
fuel-exhaustion artifact — the load-context stack entry pushed for the
current file has been removed again when the interpretation exits, so the
stack equals its value before the call.  (`StackInv` is the id-allocation
invariant of the embedding; every reachable state satisfies it.) -/
theorem c9_stack_restored (fuel : Nat) (env : Env) (recurse strict : Bool)
    (name : String) (lines : List String) (s : ShellState) (h : StackInv s) :
    (interpret_shell_script fuel env recurse strict name lines s).state.load_context
      = s.load_context :=
  ((interp_preserves fuel).2.2.2 env recurse strict name lines s h).1

/-- C9 witness: a concrete strict-mode run whose first line raises
(`dbLoadRecords` without a schema); the exception propagates (`.err` is set)
and the load-context stack is still restored to its initial (empty) value. -/
theorem c9_stack_restored_witness :
    StackInv ({} : ShellState) ∧
    (interpret_shell_script 5 envW true true "st.cmd"
        ["dbLoadRecords recs.db P=1", "epicsEnvShow"] {}).state.load_context
      = ({} : ShellState).load_context ∧
    (interpret_shell_script 5 envW true true "st.cmd"
        ["dbLoadRecords recs.db P=1", "epicsEnvShow"] {}).err
      = some "RuntimeError: dbd not yet loaded" := by
  refine ⟨by decide, c9_stack_restored 5 envW true true "st.cmd" _ {} (by decide), rfl⟩

/-! ## C10 — strict mode is not forwarded across `iocshCmd` re-invocation -/

/-- C10: when a strict-mode (`raise_on_error = true`) line dispatches to
`iocshCmd` and the returned `IocshCmdArgs` marker triggers the nested
re-interpretation, that nested call runs with `raise_on_error = false` (the
source does not forward the flag); a failure while handling the re-invoked
command is therefore captured in the nested line result's `error` field and
nothing propagates to the strict-mode caller (`.err = none`). -/
theorem c10_strict_not_forwarded (f : Nat) (env : Env) (recurse : Bool)
    (line cmd a : String) (tl : List String) (e : String) (s s1 : ShellState)
    (hp : env.parse_line line (get_load_context s) s.macroDefs
        = { line := line, argv := ["iocshCmd", cmd], redirects := [], error := none })
    (hp2 : env.parse_line cmd (get_load_context s) s.macroDefs
        = { line := cmd, argv := a :: tl, redirects := [], error := none })
    (hc : handle_command env s a tl = (.error e, s1)) :
    interpret_shell_line (f + 2) env recurse true line s
      = ⟨[{ line := line, argv := ["iocshCmd", cmd], redirects := [],
            error := none, result := some (.cmdArgs (get_load_context s) cmd) },
          { line := cmd, argv := a :: tl, redirects := [],
            error := some ("Failed to execute: " ++ e), result := none }],
         s1, none⟩ := by
  have houter : handle_command env s "iocshCmd" [cmd]
      = (.ok (.cmdArgs (get_load_context s) cmd), s) := rfl
  show interpret_shell_line (f + 1 + 1) env recurse true line s = _
  simp only [interpret_shell_line]
  rw [hp]
  simp only [List.headD_cons, List.tail_cons]
  simp only [houter]
  rw [hp2]
  simp [hc]

/-- C10 witness: `iocshCmd dbLoadRecords` in strict mode — the nested
`dbLoadRecords` dispatch raises (missing arguments), the nested result
records the error, and no exception propagates. -/
theorem c10_strict_not_forwarded_witness :
    envW.parse_line "iocshCmd dbLoadRecords" (get_load_context {})
        ({} : ShellState).macroDefs
      = { line := "iocshCmd dbLoadRecords", argv := ["iocshCmd", "dbLoadRecords"],
          redirects := [], error := none } ∧
    handle_command envW {} "dbLoadRecords" []
      = (.error "TypeError: dbLoadRecords missing arguments", {}) ∧
    interpret_shell_line 5 envW true true "iocshCmd dbLoadRecords" {}
      = ⟨[{ line := "iocshCmd dbLoadRecords", argv := ["iocshCmd", "dbLoadRecords"],
            redirects := [], error := none,
            result := some (.cmdArgs (get_load_context {}) "dbLoadRecords") },
          { line := "dbLoadRecords", argv := ["dbLoadRecords"], redirects := [],
            error := some ("Failed to execute: "
              ++ "TypeError: dbLoadRecords missing arguments"), result := none }],
         {}, none⟩ := by
  refine ⟨rfl, rfl, ?_⟩
  exact c10_strict_not_forwarded 3 envW true "iocshCmd dbLoadRecords" "dbLoadRecords"
    "dbLoadRecords" [] "TypeError: dbLoadRecords missing arguments" {} {} rfl rfl rfl

/-! ## C4 — whatrec and asyn port resolution -/

/-- A motor port declaring the (unregistered) parent name `P`. -/
def c4_child_port : AsynPort := { kind := "motor", name := "child", parent := some "P" }

/-- A record whose INP field is an `@asyn` reference to the `child` port. -/
def c4_rec : RecordInstance :=
  { name := "rec1", record_type := "asyn", fields := [("INP", { value := "@asyn(child,0)" })] }

/-- A state where `child` is registered but its declared parent `P` is not. -/
def c4_state : ShellState :=
  { database := [("rec1", c4_rec)], asyn_ports := [("child", c4_child_port)] }

/-- C4 counterexample: the record resolves its port `child`, which declares
parent name `P`; `P` is not registered, so `whatrec` inserts the failed
lookup — `none` — ahead of the child.  No port named `P` appears in the
returned list, refuting "the parent port appears ... ahead of the child". -/
theorem c4_counterexample :
    (whatrec c4_state "rec1" none true).map WhatRec.asyn_ports
      = some [Option.none, some c4_child_port] ∧
    c4_child_port.parent = some "P" ∧
    pyGet c4_state.asyn_ports "child" = some c4_child_port ∧
    pyGet c4_state.asyn_ports "P" = none ∧
    ((whatrec c4_state "rec1" none true).map (fun w =>
        w.asyn_ports.all (fun po => po.elim true (fun q => q.name != "P"))))
      = some true := by
  exact ⟨rfl, rfl, rfl, rfl, rfl⟩

/-- C4 (amended): when a record of the classic namespace resolves an
`@asyn` reference to a registered port (via INP, falling back to OUT),
`whatrec` returns a result containing the instance and that port; if the
port declares a parent name, the *registry lookup* of that name is inserted
ahead of the child — in particular, when the parent name is itself
registered, the parent port appears ahead of the child.  A name found in
neither namespace yields `none`. -/
theorem c4_amended (s : ShellState) (rec : String) (inst : RecordInstance)
    (port : AsynPort) (fo : Option String) (incl : Bool)
    (h1 : pyGet s.database rec = some inst)
    (h2 : get_asyn_port_from_record s inst = some port) :
    (∃ w, whatrec s rec fo incl = some w ∧ inst ∈ w.instances ∧
      some port ∈ w.asyn_ports ∧
      (port.parent = none → w.asyn_ports = [some port]) ∧
      (∀ pn, port.parent = some pn →
        w.asyn_ports = [pyGet s.asyn_ports pn, some port]) ∧
      (∀ pn pp, port.parent = some pn → pyGet s.asyn_ports pn = some pp →
        w.asyn_ports = [some pp, some port])) ∧
    (∀ r', pyGet s.database r' = none → pyGet s.pva_database r' = none →
      whatrec s r' fo true = none) := by
  constructor
  · refine ⟨?_, ?_, ?_, ?_, ?_, ?_, ?_⟩
    case left.refine_1 =>
      exact { name := rec,
              instances := (some inst).toList
                ++ (if incl then pyGet s.pva_database rec else none).toList,
              asyn_ports := match port.parent with
                | none => [some port]
                | some parent_port => [pyGet s.asyn_ports parent_port, some port] }
    · simp [whatrec, h1, h2]
    · simp
    · cases hp : port.parent with
      | none => simp
      | some pn => simp
    · intro hp
      simp [hp]
    · intro pn hp
      simp [hp]
    · intro pn pp hp hpp
      simp [hp, hpp]
  · intro r' hr1 hr2
    simp [whatrec, hr1, hr2]

/-- The registered parent port for the witness. -/
def c4_parent_port : AsynPort := { kind := "ads", name := "P" }

/-- A state where both `child` and its parent `P` are registered. -/
def c4_state2 : ShellState :=
  { database := [("rec1", c4_rec)],
    asyn_ports := [("P", c4_parent_port), ("child", c4_child_port)] }

/-- C4 witness: with the parent registered, the query returns the record,
the child port, and the parent ahead of the child; an unknown name yields
`none`. -/
theorem c4_amended_witness :
    pyGet c4_state2.database "rec1" = some c4_rec ∧
    get_asyn_port_from_record c4_state2 c4_rec = some c4_child_port ∧
    (∃ w, whatrec c4_state2 "rec1" none true = some w ∧ c4_rec ∈ w.instances ∧
      some c4_child_port ∈ w.asyn_ports ∧
      (c4_child_port.parent = none → w.asyn_ports = [some c4_child_port]) ∧
      (∀ pn, c4_child_port.parent = some pn →
        w.asyn_ports = [pyGet c4_state2.asyn_ports pn, some c4_child_port]) ∧
      (∀ pn pp, c4_child_port.parent = some pn →
        pyGet c4_state2.asyn_ports pn = some pp →
        w.asyn_ports = [some pp, some c4_child_port])) ∧
    (∀ r', pyGet c4_state2.database r' = none →
      pyGet c4_state2.pva_database r' = none →
      whatrec c4_state2 r' none true = none) := by
  have h := c4_amended c4_state2 "rec1" c4_rec c4_child_port none true rfl rfl
  exact ⟨rfl, rfl, h.1, h.2⟩

/-! ## C8 — unknown commands -/

/-- C8: a command name with no registered handler — not a `handle_*` method
(nor the reflection-registered `command` itself), and not a dynamically
registered motor command — returns the sentinel `unhandled` outcome
(Python `None`) and leaves the state untouched, raising nothing. -/
theorem c8_unhandled (env : Env) (s : ShellState) (cmd : String) (args : List String)
    (h1 : cmd ≠ "command")
    (h2 : pyGet handlersTable cmd = none)
    (h3 : pyGet env.motor_commands cmd = none) :
    handle_command env s cmd args = (.ok .pyNone, s) := by
  rw [handle_command.eq_def]
  split
  · exact absurd rfl h1
  · exact absurd rfl h1
  · rw [h2, h3]

/-! ## C1 — database load-order state machine -/

/-- C1: on a state with no schema attached, `handle_dbLoadRecords` always
raises (leaving the state untouched); with a schema attached and the IOC not
initialized, a second `handle_dbLoadDatabase` returns the non-fatal TODO
marker instead of raising; and once the initialized flag is set, both
commands raise. -/
theorem c1_load_order (env : Env) (s : ShellState) :
    (s.database_definition = none →
      ∀ args, ∃ e, handle_dbLoadRecords env s args = (.error e, s)) ∧
    (∀ d, s.database_definition = some d → s.ioc_initialized = false →
      ∀ dbd rest, handle_dbLoadDatabase env s (dbd :: rest)
        = (.ok (.str "whatrecord: TODO multiple dbLoadDatabase"), s)) ∧
    (s.ioc_initialized = true →
      ∀ args, (∃ e, handle_dbLoadDatabase env s args = (.error e, s)) ∧
              (∃ e, handle_dbLoadRecords env s args = (.error e, s))) := by
  refine ⟨?_, ?_, ?_⟩
  · intro h args
    match args with
    | [] => exact ⟨_, rfl⟩
    | [_] => exact ⟨_, rfl⟩
    | _ :: _ :: _ =>
        refine ⟨"RuntimeError: dbd not yet loaded", ?_⟩
        simp [handle_dbLoadRecords, h]
  · intro d hd hinit dbd rest
    simp [handle_dbLoadDatabase, hd, hinit]
  · intro hinit args
    constructor
    · match args with
      | [] => exact ⟨_, rfl⟩
      | _ :: _ =>
          refine ⟨"RuntimeError: Database cannot be loaded after iocInit", ?_⟩
          simp [handle_dbLoadDatabase, hinit]
    · match args with
      | [] => exact ⟨_, rfl⟩
      | [_] => exact ⟨_, rfl⟩
      | _ :: _ :: _ =>
          cases hd : s.database_definition with
          | none =>
              refine ⟨"RuntimeError: dbd not yet loaded", ?_⟩
              simp [handle_dbLoadRecords, hd]
          | some d =>
              refine ⟨"RuntimeError: Records cannot be loaded after iocInit", ?_⟩
              simp [handle_dbLoadRecords, hd, hinit]

/-- A state with a schema already attached and the IOC not initialized. -/
def c1_state_schema : ShellState := { database_definition := some {} }

/-- A state with a schema attached and the IOC already initialized. -/
def c1_state_init : ShellState :=
  { database_definition := some {}, ioc_initialized := true }

/-- C1 witness: concrete invocations of all three clauses. -/
theorem c1_load_order_witness :
    (({} : ShellState).database_definition = none ∧
      ∃ e, handle_dbLoadRecords envW {} ["recs.db", "P=X:"] = (.error e, {})) ∧
    (c1_state_schema.database_definition = some {} ∧
      c1_state_schema.ioc_initialized = false ∧
      handle_dbLoadDatabase envW c1_state_schema ["base.dbd"]
        = (.ok (.str "whatrecord: TODO multiple dbLoadDatabase"), c1_state_schema)) ∧
    (c1_state_init.ioc_initialized = true ∧
      (∃ e, handle_dbLoadDatabase envW c1_state_init ["base.dbd"] = (.error e, c1_state_init)) ∧
      (∃ e, handle_dbLoadRecords envW c1_state_init ["recs.db", ""] = (.error e, c1_state_init))) := by
  refine ⟨⟨rfl, (c1_load_order envW {}).1 rfl ["recs.db", "P=X:"]⟩,
          ⟨rfl, rfl, (c1_load_order envW c1_state_schema).2.1 {} rfl rfl "base.dbd" []⟩,
          ⟨rfl, ((c1_load_order envW c1_state_init).2.2 rfl ["base.dbd"]).1,
           ((c1_load_order envW c1_state_init).2.2 rfl ["recs.db", ""]).2⟩⟩

/-! ## C2 — the PVA-namespace merge consults the wrong store -/

/-- A PVA group already present in the structured store. -/
def c2_group_old : RecordInstance :=
  { name := "grp", record_type := "PVA", is_pva := true, context := [("old.cmd", 1)] }

/-- The same group re-declared by a newly loaded file, carrying a field. -/
def c2_group_new : RecordInstance :=
  { name := "grp", record_type := "PVA", is_pva := true, context := [("grp.db", 3)],
    fields := [("X", { value := "7" })] }

/-- A state with a schema attached and `grp` already in `pva_database`
(but absent from the classic `database`). -/
def c2_state : ShellState :=
  { database_definition := some {}, pva_database := [("grp", c2_group_old)] }

/-- The parse result of the re-declaring records file. -/
def c2_parsed : ParsedDb := { records := [], pva_groups := [("grp", c2_group_new)] }

/-- An environment whose record-file parse yields the PVA group `grp`. -/
def envC2 : Env :=
  { envW with db_from_file := fun _ _ => .ok c2_parsed }

/-- C2: evaluating `handle_dbLoadRecords` at the failing input — a PVA group
whose name is already present in `pva_database` — raises `KeyError` (the
merge loop looks the existing entry up in `self.database`, not
`self.pva_database`) and leaves the structured store unmerged; only the file
ledgers were touched. -/
theorem c2_pva_merge_bug :
    pyGet c2_state.pva_database "grp" = some c2_group_old ∧
    (handle_dbLoadRecords envC2 c2_state ["grp.db", ""]).1
      = .error ("KeyError: " ++ pyRepr "grp") ∧
    (handle_dbLoadRecords envC2 c2_state ["grp.db", ""]).2.pva_database
      = c2_state.pva_database ∧
    (handle_dbLoadRecords envC2 c2_state ["grp.db", ""]).2.database = [] := by
  exact ⟨rfl, rfl, rfl, rfl⟩

/-! ## C3 — `add_script` merges whole objects, not fields -/

/-- The record instance already present in the container. -/
def c3_inst_old : RecordInstance :=
  { name := "rec1", record_type := "ao", fields := [("A", { value := "1" })],
    context := [("old.db", 1)] }

/-- The instance of the same name carried by the newly added script. -/
def c3_inst_new : RecordInstance :=
  { name := "rec1", record_type := "ao", fields := [("B", { value := "2" })],
    context := [("new.db", 5)] }

/-- A container already holding `rec1`. -/
def c3_container : ScriptContainer := { database := [("rec1", c3_inst_old)] }

/-- A loaded IOC redeclaring `rec1` with different fields and context. -/
def c3_loaded : LoadedIoc :=
  { metadata := { script := "st.cmd" },
    shell_state := { database := [("rec1", c3_inst_new)] } }

/-- C3 counterexample: `add_script` replaces the container's `rec1` entry by
the new instance wholesale — the old field `A` is gone and the stored
provenance is the new context alone, not the concatenation — refuting the
claimed field-level merge with appended provenance. -/
theorem c3_counterexample :
    pyGet (add_script c3_container c3_loaded).database "rec1" = some c3_inst_new ∧
    pyGet c3_inst_new.fields "A" = none ∧
    pyGet c3_inst_old.fields "A" = some { value := "1" } ∧
    c3_inst_new.context ≠ c3_inst_old.context ++ c3_inst_new.context := by
  refine ⟨rfl, rfl, rfl, by decide⟩

/-- C3 (amended): `add_script` merges all three mappings — the record store
included — by last-write-wins whole-object replacement per key, and stores
the loaded IOC under its script path. -/
theorem c3_amended (c : ScriptContainer) (l : LoadedIoc) (k : String)
    (h1 : (l.shell_state.database.map Prod.fst).Nodup)
    (h2 : (l.shell_state.pva_database.map Prod.fst).Nodup)
    (h3 : (l.shell_state.loaded_files.map Prod.fst).Nodup) :
    pyGet (add_script c l).database k
      = (pyGet l.shell_state.database k).or (pyGet c.database k) ∧
    pyGet (add_script c l).pva_database k
      = (pyGet l.shell_state.pva_database k).or (pyGet c.pva_database k) ∧
    pyGet (add_script c l).loaded_files k
      = (pyGet l.shell_state.loaded_files k).or (pyGet c.loaded_files k) ∧
    pyGet (add_script c l).scripts l.metadata.script = some l := by
  refine ⟨pyGet_pyUpdate _ _ _ h1, pyGet_pyUpdate _ _ _ h2,
          pyGet_pyUpdate _ _ _ h3, pyGet_pySet_self _ _ _⟩

/-- C3 witness: the concrete container/loaded pair of the counterexample
satisfies the per-key last-write-wins reading. -/
theorem c3_amended_witness :
    (c3_loaded.shell_state.database.map Prod.fst).Nodup ∧
    pyGet (add_script c3_container c3_loaded).database "rec1"
      = (pyGet c3_loaded.shell_state.database "rec1").or (pyGet c3_container.database "rec1") ∧
    pyGet (add_script c3_container c3_loaded).scripts "st.cmd" = some c3_loaded := by
  refine ⟨by decide, ?_, ?_⟩
  · exact (c3_amended c3_container c3_loaded "rec1" (by decide) (by decide) (by decide)).1
  · exact (c3_amended c3_container c3_loaded "rec1" (by decide) (by decide) (by decide)).2.2.2

/-! ## C6 — hardware-port configuration commands -/

/-- C6 counterexample: `handle_drvAsynMotorConfigure` with its required port
name missing does *not* no-op — it registers a motor `PortObject` under the
empty name (and, as the amended claim records, links no parent). -/
theorem c6_counterexample :
    (handle_drvAsynMotorConfigure envW {} []).2.asyn_ports
      = [("", { kind := "motor", context := [], name := "", parent := none,
                metadata := [("num_axes", "0"), ("card_num", "0"),
                             ("driver_name", "")] })] ∧
    (handle_drvAsynMotorConfigure envW {} []).2 ≠ ({} : ShellState) := by
  refine ⟨rfl, by decide⟩

/-- C6 (amended): the serial, IP and ads port commands silently no-op when
the port name is missing or empty and register a port under the name
otherwise; `drvAsynMotorConfigure` registers unconditionally (under the empty
name when the argument is missing) with no parent link; and
`EthercatMCCreateController` raises a lookup failure when its parent asyn
port is unregistered, otherwise registering the motor port linked to its
parent by name and recording it in the parent's motor table. -/
theorem c6_amended (env : Env) (s : ShellState) (args : List String)
    (mp ap : String)
    (hmp : (args.get? 0).getD "" = mp) (hap : (args.get? 1).getD "" = ap) :
    (mp = "" →
      handle_drvAsynSerialPortConfigure env s args = (.ok .pyNone, s) ∧
      handle_drvAsynIPPortConfigure env s args = (.ok .pyNone, s) ∧
      (handle_adsAsynPortDriverConfigure env s args).2 = s ∧
      (∃ g, (handle_adsAsynPortDriverConfigure env s args).1 = .ok (.str g))) ∧
    (mp ≠ "" →
      (∃ port : AsynPort, port.kind = "serial" ∧ port.name = mp ∧
        handle_drvAsynSerialPortConfigure env s args
          = (.ok .pyNone, { s with asyn_ports := pySet s.asyn_ports mp port })) ∧
      (∃ port : AsynPort, port.kind = "ip" ∧ port.name = mp ∧
        handle_drvAsynIPPortConfigure env s args
          = (.ok .pyNone, { s with asyn_ports := pySet s.asyn_ports mp port })) ∧
      (∃ port g, AsynPort.kind port = "ads" ∧ AsynPort.name port = mp ∧
        handle_adsAsynPortDriverConfigure env s args
          = (.ok (.str g), { s with asyn_ports := pySet s.asyn_ports mp port }))) ∧
    (∃ port g, AsynPort.kind port = "motor" ∧ AsynPort.parent port = none ∧
      AsynPort.name port = mp ∧
      handle_drvAsynMotorConfigure env s args
        = (.ok (.str g), { s with asyn_ports := pySet s.asyn_ports mp port })) ∧
    (pyGet s.asyn_ports ap = none →
      handle_EthercatMCCreateController env s args
        = (.error ("KeyError: " ++ pyRepr ap), s)) ∧
    (∀ port, pyGet s.asyn_ports ap = some port →
      ∃ motor md port' g,
        AsynPort.kind motor = "motor" ∧ AsynPort.parent motor = some ap ∧
        AsynPort.name motor = mp ∧ AsynMotorData.parent md = some ap ∧
        port' = { port with motors := pySet port.motors mp md } ∧
        handle_EthercatMCCreateController env s args
          = (.ok (.str g),
             { s with asyn_ports := pySet (pySet s.asyn_ports ap port') mp motor })) := by
  simp only [List.get?_eq_getElem?] at hmp hap
  refine ⟨?_, ?_, ?_, ?_, ?_⟩
  · intro h
    subst h
    refine ⟨?_, ?_, ?_, ?_⟩
    · simp [handle_drvAsynSerialPortConfigure, hmp]
    · simp [handle_drvAsynIPPortConfigure, hmp]
    · simp [handle_adsAsynPortDriverConfigure, _motor_wrapper,
        adsAsynPortDriverConfigure_body, hmp]
    · exact ⟨_generic_motor_handler
          ((pyGet env.motor_commands "adsAsynPortDriverConfigure").getD []) args,
        by simp [handle_adsAsynPortDriverConfigure, _motor_wrapper,
          adsAsynPortDriverConfigure_body, hmp]⟩
  · intro hne
    have hbeq : (mp == "") = false := by simpa using hne
    refine ⟨?_, ?_, ?_⟩
    · exact ⟨{ kind := "serial", context := get_load_context s, name := mp,
               info := [("ttyName", args.get? 1), ("priority", args.get? 2),
                        ("noAutoConnect", args.get? 3), ("noProcessEos", args.get? 4)] },
             rfl, rfl, by simp [handle_drvAsynSerialPortConfigure, hmp, hbeq]⟩
    · exact ⟨{ kind := "ip", context := get_load_context s, name := mp,
               info := [("hostInfo", args.get? 1), ("priority", args.get? 2),
                        ("noAutoConnect", args.get? 3), ("noProcessEos", args.get? 4)] },
             rfl, rfl, by simp [handle_drvAsynIPPortConfigure, hmp, hbeq]⟩
    · refine ⟨{ kind := "ads", context := get_load_context s, name := mp,
                info := [("ipaddr", args.get? 1), ("amsaddr", args.get? 2),
                         ("amsport", args.get? 3), ("asynParamTableSize", args.get? 4),
                         ("priority", args.get? 5), ("noAutoConnect", args.get? 6),
                         ("defaultSampleTimeMS", args.get? 7), ("maxDelayTimeMS", args.get? 8),
                         ("adsTimeoutMS", args.get? 9), ("defaultTimeSource", args.get? 10)] },
              _generic_motor_handler
                ((pyGet env.motor_commands "adsAsynPortDriverConfigure").getD []) args,
              rfl, rfl, ?_⟩
      simp [handle_adsAsynPortDriverConfigure, _motor_wrapper,
        adsAsynPortDriverConfigure_body, hmp, hbeq]
  · refine ⟨{ kind := "motor", context := get_load_context s, name := mp, parent := none,
              metadata := [("num_axes", (args.get? 3).getD "0"),
                           ("card_num", (args.get? 2).getD "0"),
                           ("driver_name", (args.get? 1).getD "")] },
            _generic_motor_handler
              ((pyGet env.motor_commands "drvAsynMotorConfigure").getD []) args,
            rfl, rfl, rfl, ?_⟩
    simp [handle_drvAsynMotorConfigure, _motor_wrapper, drvAsynMotorConfigure_body, hmp]
  · intro h
    simp [handle_EthercatMCCreateController, _motor_wrapper,
      EthercatMCCreateController_body, hap, h]
  · intro port h
    refine ⟨{ kind := "motor", context := get_load_context s, name := mp, parent := some ap,
              metadata := [("num_axes", (args.get? 2).getD "0"),
                           ("move_poll_rate", (args.get? 3).getD "0.0"),
                           ("idle_poll_rate", (args.get? 4).getD "0.0")] },
            { context := get_load_context s, name := mp, parent := some ap,
              metadata := [("num_axes", (args.get? 2).getD "0"),
                           ("move_poll_rate", (args.get? 3).getD "0.0"),
                           ("idle_poll_rate", (args.get? 4).getD "0.0")] },
            _,
            _generic_motor_handler
              ((pyGet env.motor_commands "EthercatMCCreateController").getD []) args,
            rfl, rfl, rfl, rfl, rfl, ?_⟩
    simp [handle_EthercatMCCreateController, _motor_wrapper,
      EthercatMCCreateController_body, hap, hmp, h]

/-- The registered ads port that serves as the Ethercat parent. -/
def c6_ads_port : AsynPort := { kind := "ads", name := "ADS1" }

/-- A state with one registered ads port, used as the Ethercat parent. -/
def c6_state : ShellState := { asyn_ports := [("ADS1", c6_ads_port)] }

/-- C6 witness: concrete no-op, registration, and parent-linking runs. -/
theorem c6_amended_witness :
    ((([] : List String).get? 0).getD "" = "" ∧
      handle_drvAsynSerialPortConfigure envW {} [] = (.ok .pyNone, {})) ∧
    ((["P1", "/dev/tty0"].get? 0).getD "" = "P1" ∧
      (∃ port : AsynPort, port.kind = "serial" ∧ port.name = "P1" ∧
        handle_drvAsynSerialPortConfigure envW {} ["P1", "/dev/tty0"]
          = (.ok .pyNone, { asyn_ports := pySet [] "P1" port }))) ∧
    (pyGet c6_state.asyn_ports "ADS1" = some c6_ads_port ∧
      (∃ motor md port' g,
        AsynPort.kind motor = "motor" ∧ AsynPort.parent motor = some "ADS1" ∧
        AsynPort.name motor = "M1" ∧ AsynMotorData.parent md = some "ADS1" ∧
        port' = { c6_ads_port with motors := pySet c6_ads_port.motors "M1" md } ∧
        handle_EthercatMCCreateController envW c6_state ["M1", "ADS1"]
          = (.ok (.str g),
             { c6_state with
               asyn_ports := pySet (pySet c6_state.asyn_ports "ADS1" port') "M1" motor }))) := by
  refine ⟨⟨rfl, ?_⟩, ⟨rfl, ?_⟩, ⟨rfl, ?_⟩⟩
  · exact ((c6_amended envW {} [] "" "" rfl rfl).1 rfl).1
  · exact (((c6_amended envW {} ["P1", "/dev/tty0"] "P1" "/dev/tty0" rfl rfl).2.1
      (by decide)).1)
  · exact ((c6_amended envW c6_state ["M1", "ADS1"] "M1" "ADS1" rfl rfl).2.2.2.2
      c6_ads_port rfl)

/-! ## C7 — `asynSetOption` -/

/-- C7: `handle_asynSetOption` raises a lookup failure (state untouched, so
the registry in particular) when the port is unregistered; stores the option
on the port itself for a single-device port; and stores it on the addressed
sub-device for a multi-device port. -/
theorem c7_asynSetOption (env : Env) (s : ShellState)
    (name addr key value : String) :
    (pyGet s.asyn_ports name = none →
      handle_asynSetOption env s [name, addr, key, value]
        = (.error ("KeyError: " ++ pyRepr name), s)) ∧
    (∀ port : AsynPort, pyGet s.asyn_ports name = some port → port.kind ≠ "multi" →
      ∃ port' : AsynPort,
        port' = { port with options := pySet port.options key ⟨get_load_context s, key, value⟩ } ∧
        handle_asynSetOption env s [name, addr, key, value]
          = (.ok .pyNone, { s with asyn_ports := pySet s.asyn_ports name port' })) ∧
    (∀ port dev, pyGet s.asyn_ports name = some port → port.kind = "multi" →
      pyGet port.devices addr = some dev →
      ∃ dev' port',
        dev' = { dev with options := pySet dev.options key ⟨get_load_context s, key, value⟩ } ∧
        port' = { port with devices := pySet port.devices addr dev' } ∧
        handle_asynSetOption env s [name, addr, key, value]
          = (.ok .pyNone, { s with asyn_ports := pySet s.asyn_ports name port' })) := by
  refine ⟨?_, ?_, ?_⟩
  · intro h
    simp [handle_asynSetOption, h]
  · intro port hget hkind
    have hbeq : (port.kind == "multi") = false := by simpa using hkind
    exact ⟨_, rfl, by simp [handle_asynSetOption, hget, hbeq]⟩
  · intro port dev hget hkind hdev
    have hbeq : (port.kind == "multi") = true := by simpa using hkind
    exact ⟨_, _, rfl, rfl, by simp [handle_asynSetOption, hget, hbeq, hdev]⟩

/-- A multi-device port with one sub-device at address `0`. -/
def c7_multi_port : AsynPort :=
  { kind := "multi", name := "M", devices := [("0", { options := [] })] }

/-- A state with one serial port and one multi-device port registered. -/
def c7_state : ShellState :=
  { asyn_ports := [("S", { kind := "serial", name := "S" }), ("M", c7_multi_port)] }

/-- C7 witness: the unregistered-name, single-device and multi-device clauses
at concrete inputs. -/
theorem c7_asynSetOption_witness :
    (pyGet c7_state.asyn_ports "nope" = none ∧
      handle_asynSetOption envW c7_state ["nope", "0", "baud", "9600"]
        = (.error ("KeyError: " ++ pyRepr "nope"), c7_state)) ∧
    (pyGet c7_state.asyn_ports "S" = some { kind := "serial", name := "S" } ∧
      (∃ port' : AsynPort,
        port' = { AsynPort.mk "serial" [] "S" none [] [] [] [] [] with
                  options := pySet [] "baud" ⟨[], "baud", "9600"⟩ } ∧
        handle_asynSetOption envW c7_state ["S", "0", "baud", "9600"]
          = (.ok .pyNone, { c7_state with asyn_ports := pySet c7_state.asyn_ports "S" port' }))) ∧
    (pyGet c7_multi_port.devices "0" = some { options := [] } ∧
      (∃ dev' port',
        dev' = { AsynPortDevice.mk [] with
                 options := pySet [] "baud" ⟨[], "baud", "9600"⟩ } ∧
        port' = { c7_multi_port with devices := pySet c7_multi_port.devices "0" dev' } ∧
        handle_asynSetOption envW c7_state ["M", "0", "baud", "9600"]
          = (.ok .pyNone, { c7_state with asyn_ports := pySet c7_state.asyn_ports "M" port' }))) := by
  refine ⟨⟨rfl, ?_⟩, ⟨rfl, ?_⟩, ⟨rfl, ?_⟩⟩
  · exact (c7_asynSetOption envW c7_state "nope" "0" "baud" "9600").1 rfl
  · exact (c7_asynSetOption envW c7_state "S" "0" "baud" "9600").2.1
      { kind := "serial", name := "S" } rfl (by decide)
  · exact (c7_asynSetOption envW c7_state "M" "0" "baud" "9600").2.2
      c7_multi_port { options := [] } rfl rfl rfl

/-- C8 witness: the concrete unknown command `seq` on a fresh state. -/
theorem c8_unhandled_witness :
    "seq" ≠ "command" ∧ pyGet handlersTable "seq" = none ∧
    pyGet envW.motor_commands "seq" = none ∧
    handle_command envW {} "seq" ["sncProg", "arg"] = (.ok .pyNone, {}) := by
  refine ⟨by decide, by rfl, by rfl, ?_⟩
  exact c8_unhandled envW {} "seq" ["sncProg", "arg"] (by decide) (by rfl) (by rfl)

end Whatrecord
